import Mathlib

/-!
Shallow embedding of the PuzzleAdventure core subsystems:

* `ImageSplitter.splitImage` (src/src/services/ImageSplitter.ts) — the edge
  polarity matrices and the per-cell derived side shapes.
* `SnapSystem` (src/unnamed/part_005) — the board-wide placement engine.
* `PocketManager` (src/unnamed/part_010) — the three off-board stashes.
* `PocketFocusMode` / `PocketRestrictedSnapSystem` (src/unnamed/part_009) —
  the modal focus overlay and its restricted placement engine.

Conventions: pixel coordinates, angles, alphas and scroll factors are `Rat`
(the source uses JS doubles; none of the verified properties depend on
floating-point rounding), render depth is `Int`, tints are `Nat` colour
words.  A strict Euclidean distance comparison `hypot dx dy < d` with
`d > 0` is embedded as `dx^2 + dy^2 < d^2`, which is equivalent over the
nonnegative reals.  Engine side effects that do not touch the modelled
state (audio, event emission, persistence to localStorage, ghost-sprite
groups) are not modelled.  Fallible index accesses follow the source's
guard structure; branches the source guards away return the state
unchanged.
-/

/-- Runtime state of one puzzle piece (src/src/objects/Piece.ts plus the
Phaser sprite fields the game reads and writes: visibility, interactive
enabled flag, depth, scroll factor, alpha, tint, scale). -/
structure Piece where
  x : Rat
  y : Rat
  angle : Rat
  correctX : Rat
  correctY : Rat
  isSolved : Bool
  visible : Bool
  interactive : Bool
  depth : Int
  scrollX : Rat
  scrollY : Rat
  alpha : Rat
  tint : Nat
  scale : Rat
  logicalWidth : Rat
  logicalHeight : Rat
  deriving Repr, DecidableEq

/-! ## ImageSplitter (src/src/services/ImageSplitter.ts)

`horizontalShapes` is a `cols × (rows+1)` matrix, zero-initialised, whose
internal rows `1 ≤ r < rows` are filled with a random ±1; `verticalShapes`
is `(cols+1) × rows` with internal columns `1 ≤ c < cols` filled with ±1.
The random draw `Math.random() > 0.5 ? 1 : -1` is modelled by a Boolean
oracle `rnd`. -/

/-- `horizontalShapes[c][r]` after the fill loops of `splitImage`. -/
def horizontalShapes (rnd : Nat → Nat → Bool) (cols rows c r : Nat) : Int :=
  if c < cols ∧ 1 ≤ r ∧ r < rows then (if rnd c r then 1 else -1) else 0

/-- `verticalShapes[c][r]` after the fill loops of `splitImage`. -/
def verticalShapes (rnd : Nat → Nat → Bool) (cols rows c r : Nat) : Int :=
  if 1 ≤ c ∧ c < cols ∧ r < rows then (if rnd c r then 1 else -1) else 0

/-- The four derived side shapes of one grid cell. -/
structure SideShapes where
  top : Int
  right : Int
  bottom : Int
  left : Int
  deriving Repr, DecidableEq

/-- The `shapes` record computed per cell in `splitImage`:
`top = -H[col][row]`, `right = V[col+1][row]`, `bottom = H[col][row+1]`,
`left = -V[col][row]`. -/
def pieceSideShapes (rndH rndV : Nat → Nat → Bool) (cols rows col row : Nat) : SideShapes :=
  { top := - horizontalShapes rndH cols rows col row
    right := verticalShapes rndV cols rows (col + 1) row
    bottom := horizontalShapes rndH cols rows col (row + 1)
    left := - verticalShapes rndV cols rows col row }

/-! ## SnapSystem (src/unnamed/part_005) -/

/-- Configuration of `SnapSystem`; the defaults are those of the source
constructor (`snapDistance = 30`, `requireAngle0 = true`,
`solvedTint = 0xddffdd`). -/
structure SnapSystemOptions where
  snapDistance : Rat := 30
  requireAngle0 : Bool := true
  solvedTint : Nat := 0xddffdd
  deriving Repr, DecidableEq

namespace SnapSystem

/-- `SnapSystem.canSnap`: not already solved, strictly inside the snap
distance, and (when required) angle exactly 0.  The source's
`Phaser.Math.Distance.Between(...) >= snapDistance` test is the squared
comparison here. -/
def canSnap (opts : SnapSystemOptions) (piece : Piece) : Bool :=
  if piece.isSolved then false
  else if (piece.x - piece.correctX) ^ 2 + (piece.y - piece.correctY) ^ 2 ≥
      opts.snapDistance ^ 2 then false
  else if opts.requireAngle0 && decide (piece.angle ≠ 0) then false
  else true

/-- `SnapSystem.applySolvedState`: teleport to the target, zero the angle,
mark solved, disable interaction, depth 0, solved tint.  (Audio and the
`piece-placed` event are not piece state.) -/
def applySolvedState (opts : SnapSystemOptions) (piece : Piece) : Piece :=
  { piece with
      isSolved := true
      x := piece.correctX
      y := piece.correctY
      angle := 0
      interactive := false
      depth := 0
      tint := opts.solvedTint }

/-- `SnapSystem.trySnap`: apply the solved state iff `canSnap`. -/
def trySnap (opts : SnapSystemOptions) (piece : Piece) : Bool × Piece :=
  if canSnap opts piece then (true, applySolvedState opts piece) else (false, piece)

end SnapSystem

/-! ## Claim C3 — interlocking edge shapes -/

/-- C3: in `splitImage`, for every grid with `cols ≥ 1` and `rows ≥ 1`:
each internal boundary yields nonzero side shapes of equal magnitude and
opposite sign in the two adjacent cells, and every border side has shape
value 0. -/
theorem splitImage_edge_shapes (rndH rndV : Nat → Nat → Bool) (cols rows : Nat)
    (hc : 1 ≤ cols) (hr : 1 ≤ rows) :
    (∀ col row, col < cols → row + 1 < rows →
      (pieceSideShapes rndH rndV cols rows col row).bottom ≠ 0 ∧
      (pieceSideShapes rndH rndV cols rows col (row + 1)).top ≠ 0 ∧
      (pieceSideShapes rndH rndV cols rows col row).bottom =
        - (pieceSideShapes rndH rndV cols rows col (row + 1)).top) ∧
    (∀ col row, col + 1 < cols → row < rows →
      (pieceSideShapes rndH rndV cols rows col row).right ≠ 0 ∧
      (pieceSideShapes rndH rndV cols rows (col + 1) row).left ≠ 0 ∧
      (pieceSideShapes rndH rndV cols rows col row).right =
        - (pieceSideShapes rndH rndV cols rows (col + 1) row).left) ∧
    (∀ col row, col < cols → row < rows →
      (pieceSideShapes rndH rndV cols rows col 0).top = 0 ∧
      (pieceSideShapes rndH rndV cols rows col (rows - 1)).bottom = 0 ∧
      (pieceSideShapes rndH rndV cols rows 0 row).left = 0 ∧
      (pieceSideShapes rndH rndV cols rows (cols - 1) row).right = 0) := by
  refine ⟨?_, ?_, ?_⟩
  · intro col row hcol hrow
    have hcond : col < cols ∧ 1 ≤ row + 1 ∧ row + 1 < rows :=
      ⟨hcol, Nat.succ_le_succ (Nat.zero_le _), hrow⟩
    constructor
    · simp only [pieceSideShapes, horizontalShapes, if_pos hcond]
      cases rndH col (row + 1) <;> simp
    constructor
    · simp only [pieceSideShapes, horizontalShapes, if_pos hcond]
      cases rndH col (row + 1) <;> simp
    · simp [pieceSideShapes, horizontalShapes]
  · intro col row hcol hrow
    have hcond : 1 ≤ col + 1 ∧ col + 1 < cols ∧ row < rows :=
      ⟨Nat.succ_le_succ (Nat.zero_le _), hcol, hrow⟩
    constructor
    · simp only [pieceSideShapes, verticalShapes, if_pos hcond]
      cases rndV (col + 1) row <;> simp
    constructor
    · simp only [pieceSideShapes, verticalShapes, if_pos hcond]
      cases rndV (col + 1) row <;> simp
    · simp [pieceSideShapes, verticalShapes]
  · intro col row _ _
    refine ⟨?_, ?_, ?_, ?_⟩
    · simp [pieceSideShapes, horizontalShapes]
    · simp only [pieceSideShapes, horizontalShapes]
      rw [if_neg]
      rintro ⟨-, -, h⟩
      omega
    · simp [pieceSideShapes, verticalShapes]
    · simp only [pieceSideShapes, verticalShapes]
      rw [if_neg]
      rintro ⟨-, h, -⟩
      omega

/-- Witness for C3 at a concrete 2×2 grid. -/
theorem splitImage_edge_shapes_witness :
    (pieceSideShapes (fun _ _ => true) (fun _ _ => false) 2 2 0 0).bottom =
        - (pieceSideShapes (fun _ _ => true) (fun _ _ => false) 2 2 0 1).top ∧
    (pieceSideShapes (fun _ _ => true) (fun _ _ => false) 2 2 0 0).top = 0 := by
  have h := splitImage_edge_shapes (fun _ _ => true) (fun _ _ => false) 2 2
    (by decide) (by decide)
  exact ⟨(h.1 0 0 (by decide) (by decide)).2.2, (h.2.2 0 0 (by decide) (by decide)).1⟩

/-! ## Claim C4 — SnapSystem.trySnap with default options -/

/-- C4: with default options, `trySnap` succeeds iff the piece is unsolved,
strictly within distance 30 of its target, and at angle exactly 0; on
success it teleports to the target, zeroes the angle, marks solved,
disables interaction and sets the solved depth and tint; on failure the
piece is unchanged. -/
theorem trySnap_default_correct (piece : Piece) :
    ((SnapSystem.trySnap {} piece).1 = true ↔
      piece.isSolved = false ∧
      (piece.x - piece.correctX) ^ 2 + (piece.y - piece.correctY) ^ 2 < 30 ^ 2 ∧
      piece.angle = 0) ∧
    ((SnapSystem.trySnap {} piece).1 = true →
      (SnapSystem.trySnap {} piece).2 =
        { piece with
            isSolved := true
            x := piece.correctX
            y := piece.correctY
            angle := 0
            interactive := false
            depth := 0
            tint := 0xddffdd }) ∧
    ((SnapSystem.trySnap {} piece).1 = false →
      (SnapSystem.trySnap {} piece).2 = piece) := by
  have hcan : SnapSystem.canSnap {} piece = true ↔
      piece.isSolved = false ∧
      (piece.x - piece.correctX) ^ 2 + (piece.y - piece.correctY) ^ 2 < 30 ^ 2 ∧
      piece.angle = 0 := by
    unfold SnapSystem.canSnap
    simp only [show ({} : SnapSystemOptions).snapDistance = 30 from rfl,
      show ({} : SnapSystemOptions).requireAngle0 = true from rfl]
    split_ifs with hs hd ha
    · simp [hs]
    · simp only [Bool.false_eq_true, false_iff]
      rintro ⟨-, hlt, -⟩
      exact absurd hd (not_le.mpr hlt)
    · simp only [Bool.true_and, decide_eq_true_eq] at ha
      simp only [Bool.false_eq_true, false_iff]
      rintro ⟨-, -, h0⟩
      exact ha h0
    · simp only [Bool.true_and, decide_eq_true_eq, Decidable.not_not] at ha
      simp [Bool.not_eq_true] at hs
      exact iff_of_true rfl ⟨hs, not_le.mp hd, ha⟩
  refine ⟨?_, ?_, ?_⟩
  · rw [← hcan]
    unfold SnapSystem.trySnap
    by_cases h : SnapSystem.canSnap {} piece <;> simp [h]
  · intro h
    unfold SnapSystem.trySnap at h ⊢
    by_cases hc : SnapSystem.canSnap {} piece
    · simp only [hc, if_true]
      rfl
    · simp [hc] at h
  · intro h
    unfold SnapSystem.trySnap at h ⊢
    by_cases hc : SnapSystem.canSnap {} piece
    · simp [hc] at h
    · simp [hc]

/-- Witness for C4 at a concrete snappable piece. -/
theorem trySnap_default_correct_witness :
    (SnapSystem.trySnap {}
      { x := 10, y := 0, angle := 0, correctX := 0, correctY := 0,
        isSolved := false, visible := true, interactive := true, depth := 1,
        scrollX := 1, scrollY := 1, alpha := 1, tint := 0xffffff, scale := 1,
        logicalWidth := 50, logicalHeight := 50 }).1 = true :=
  (trySnap_default_correct _).1.mpr ⟨rfl, by norm_num, rfl⟩

/-! ## PocketManager data model (src/unnamed/part_010) -/

/-- `lastWorldPos` record stored for a stashed piece. -/
structure LastWorldPos where
  x : Rat
  y : Rat
  angle : Rat
  deriving Repr, DecidableEq

/-- `PocketPieceState` from src/unnamed/part_010. -/
structure PocketPieceState where
  pieceId : Nat
  angle : Rat
  slotIndex : Option Nat
  lastWorldPos : Option LastWorldPos
  deriving Repr, DecidableEq

/-- Grid coordinate entry of a captured template layout. -/
structure GridCell where
  gridRow : Nat
  gridCol : Nat
  deriving Repr, DecidableEq

/-- Crop rectangle recorded at template capture. -/
structure CropRect where
  x : Rat
  y : Rat
  w : Rat
  h : Rat
  deriving Repr, DecidableEq

/-- `PocketTemplate` from src/unnamed/part_010.  `pieceLayout` is a JS
`Record<number, {gridRow, gridCol}>`, modelled as an association list with
unique keys; `imageKey` is dropped (never read by the verified
operations). -/
structure PocketTemplate where
  pieceLayout : List (Nat × GridCell)
  capturedAt : Nat
  crop : CropRect
  solvedIds : List Nat
  deriving Repr, DecidableEq

/-- `PocketState` from src/unnamed/part_010. -/
structure PocketState where
  id : Nat
  pieces : List PocketPieceState
  template : Option PocketTemplate
  deriving Repr, DecidableEq

/-- Combined board-plus-pockets state.  `boardX`/`boardY` are the board
container origin used by `PuzzleBoard.getGridToWorld`; the `PocketManager`
is always considered attached to the board and scene (the claims all
presuppose an attached manager). -/
structure GameState where
  pieces : List Piece
  pockets : List PocketState
  boardX : Rat
  boardY : Rat
  deriving Repr, DecidableEq

/-- `PuzzleBoard.getGridToWorld`. -/
def getGridToWorld (gs : GameState) (col row : Nat) (pieceW pieceH : Rat) : Rat × Rat :=
  (gs.boardX + col * pieceW, gs.boardY + row * pieceH)

/-- `PuzzleBoard.setPieceSolved`: mark solved, disable interaction, move to
the solved layer (which sets depth 0 via `PuzzleLayerStack.addToSolved`),
solved tint. -/
def setPieceSolved (piece : Piece) : Piece :=
  { piece with isSolved := true, interactive := false, depth := 0, tint := 0xddffdd }

/-- `PuzzleBoard.enablePieceInteraction`: detach and re-attach the standard
board interaction (leaving the input enabled flag on) and reset alpha
to 1. -/
def enablePieceInteraction (piece : Piece) : Piece :=
  { piece with interactive := true, alpha := 1 }

/-- `PuzzleBoard.restorePieceLayer`: remove from the overlay layer and move
to the solved or active layer according to `isSolved`; those layer moves
set depth 0 resp. 1 (`PuzzleLayerStack.addToSolved` / `addToActive`). -/
def restorePieceLayer (piece : Piece) : Piece :=
  { piece with depth := if piece.isSolved then 0 else 1 }

/-- Insertion-order deduplication with first occurrences kept; this is the
iteration order of a JS `Set` built from a list. -/
def jsDedup : List Nat → List Nat
  | [] => []
  | x :: xs => x :: jsDedup (xs.filter (fun y => y ≠ x))
termination_by l => l.length
decreasing_by
  exact Nat.lt_succ_of_le (List.length_filter_le _ _)

/-- `Array.from(new Set(l).add(x))`: `l` deduplicated in insertion order,
with `x` appended when absent. -/
def jsSetInsert (l : List Nat) (x : Nat) : List Nat :=
  jsDedup (l ++ [x])

namespace PocketManager

/-- `PocketManager.findNextFreeSlotIndex`: the least slot in `[0,16)` not
used by an assigned `slotIndex` of the pocket. -/
def findNextFreeSlotIndex (pocket : PocketState) : Option Nat :=
  let used := pocket.pieces.filterMap (·.slotIndex)
  (List.range 16).find? (fun i => ¬ used.contains i)

/-- `PocketManager.stashPiece`.  The source receives a `Piece` instance and
derives `pieceId = board.getPieces().indexOf(piece)`; here the caller
passes `pieceId` and the "instance not on the board" failure is
`gs.pieces[pieceId]? = none`.  Mutation order follows the source:
capacity check, id check, duplicate check in the target pocket only, slot
assignment, then hide/disable the piece and push the pocket entry. -/
def stashPiece (gs : GameState) (pieceId : Nat) (targetPocket : Nat) : Bool × GameState :=
  match gs.pockets[targetPocket]?, gs.pieces[pieceId]? with
  | some pocket, some piece =>
    if pocket.pieces.length ≥ 16 then (false, gs)
    else if pocket.pieces.any (fun p => p.pieceId == pieceId) then (false, gs)
    else
      match findNextFreeSlotIndex pocket with
      | none => (false, gs)
      | some slotIndex =>
        let st : PocketPieceState :=
          { pieceId := pieceId
            angle := piece.angle
            slotIndex := some slotIndex
            lastWorldPos := some { x := piece.x, y := piece.y, angle := piece.angle } }
        let piece' := { piece with interactive := false, visible := false, scale := 1, alpha := 1 }
        (true,
          { gs with
              pieces := gs.pieces.set pieceId piece'
              pockets := gs.pockets.set targetPocket
                { pocket with pieces := pocket.pieces ++ [st] } })
  | _, _ => (false, gs)

/-- `PocketManager.transferPiece`.  The free slot of the target pocket is
computed after the removal from the source pocket, exactly as in the
source; the `null` slot branch performs the source's rollback (the state
entry is spliced back unmodified), so it leaves the state unchanged. -/
def transferPiece (gs : GameState) (fromIdx toIdx pieceId : Nat) : Bool × GameState :=
  if fromIdx == toIdx then (false, gs)
  else
    match gs.pockets[fromIdx]?, gs.pockets[toIdx]? with
    | some fromP, some toP =>
      if toP.pieces.length ≥ 16 then (false, gs)
      else if toP.pieces.any (fun p => p.pieceId == pieceId) then (false, gs)
      else
        match fromP.pieces.findIdx? (fun p => p.pieceId == pieceId) with
        | none => (false, gs)
        | some stateIdx =>
          match fromP.pieces[stateIdx]? with
          | none => (false, gs)
          | some st =>
            match findNextFreeSlotIndex toP with
            | none => (false, gs)
            | some slotIndex =>
              (true,
                { gs with
                    pockets :=
                      (gs.pockets.set fromIdx
                        { fromP with pieces := fromP.pieces.eraseIdx stateIdx }).set toIdx
                        { toP with pieces := toP.pieces ++ [{ st with slotIndex := some slotIndex }] } })
    | _, _ => (false, gs)

/-- `PocketManager.retrievePiece`.  `fallback` stands for the randomized
default position near screen centre
(`scale.width/2 + Between(-120,120)`, `scale.height/2 + Between(-120,120)`)
used when `lastWorldPos` is absent; it is an input of the model because it
draws on the scene size and the RNG. -/
def retrievePiece (gs : GameState) (pocketIdx pieceId : Nat) (fallback : Rat × Rat) :
    GameState :=
  match gs.pockets[pocketIdx]? with
  | none => gs
  | some pocket =>
    match pocket.pieces.findIdx? (fun p => p.pieceId == pieceId) with
    | none => gs
    | some stateIdx =>
      match pocket.pieces[stateIdx]? with
      | none => gs
      | some st =>
        match gs.pieces[st.pieceId]? with
        | none => gs
        | some piece =>
          let piece' :=
            { piece with
                visible := true
                interactive := true
                isSolved := false
                depth := 1
                tint := 0xffffff
                alpha := 1
                angle := st.angle
                scale := 1
                scrollX := 1
                scrollY := 1 }
          let piece'' :=
            match st.lastWorldPos with
            | some lwp => { piece' with x := lwp.x, y := lwp.y }
            | none => { piece' with x := fallback.1, y := fallback.2 }
          { gs with
              pieces := gs.pieces.set st.pieceId piece''
              pockets := gs.pockets.set pocketIdx
                { pocket with pieces := pocket.pieces.eraseIdx stateIdx } }

/-- One iteration of the `retrieveAll` loop: restore the board piece for a
single pocket entry. -/
def retrieveOne (fallback : Nat → Rat × Rat) (pieces : List Piece) (st : PocketPieceState) :
    List Piece :=
  match pieces[st.pieceId]? with
  | none => pieces
  | some piece =>
    let piece' :=
      { piece with
          visible := true
          interactive := true
          isSolved := false
          depth := 1
          tint := 0xffffff
          alpha := 1
          angle := st.angle
          scale := 1
          scrollX := 1
          scrollY := 1 }
    let piece'' :=
      match st.lastWorldPos with
      | some lwp => { piece' with x := lwp.x, y := lwp.y }
      | none => { piece' with x := (fallback st.pieceId).1, y := (fallback st.pieceId).2 }
    pieces.set st.pieceId piece''

/-- `PocketManager.retrieveAll`: restore every stashed piece of the pocket
and clear its piece list. -/
def retrieveAll (gs : GameState) (pocketIdx : Nat) (fallback : Nat → Rat × Rat) : GameState :=
  match gs.pockets[pocketIdx]? with
  | none => gs
  | some pocket =>
    if pocket.pieces.length = 0 then gs
    else
      { gs with
          pieces := pocket.pieces.foldl (retrieveOne fallback) gs.pieces
          pockets := gs.pockets.set pocketIdx { pocket with pieces := [] } }

/-- `pieces[id]?.isSolved` truthiness on the main board. -/
def isSolvedOnBoard (pieces : List Piece) (id : Nat) : Bool :=
  match pieces[id]? with
  | some p => p.isSolved
  | none => false

/-- `PocketManager.isTemplateComplete`: every id of the template layout is
solved on the main board (vacuously true without a template or with an
empty layout). -/
def isTemplateComplete (gs : GameState) (pocketIdx : Nat) : Bool :=
  match gs.pockets[pocketIdx]? with
  | none => true
  | some pocket =>
    match pocket.template with
    | none => true
    | some t =>
      let ids := t.pieceLayout.map (·.1)
      if ids.length = 0 then true
      else ids.all (fun id => isSolvedOnBoard gs.pieces id)

/-- `PocketManager.canCaptureTemplate`: capture is allowed when no template
exists, or the existing template is complete. -/
def canCaptureTemplate (gs : GameState) (pocketIdx : Nat) : Bool :=
  match gs.pockets[pocketIdx]? with
  | none => true
  | some pocket =>
    match pocket.template with
    | none => true
    | some _ => isTemplateComplete gs pocketIdx

/-- `PocketManager.placePieceFromPocket`: solve the piece at its template
grid coordinate, remove its pocket entry, and add its id to the template's
solved-id set (`Array.from(new Set(solvedIds).add(pieceId))`). -/
def placePieceFromPocket (gs : GameState) (pocketIdx pieceId : Nat) : GameState :=
  match gs.pockets[pocketIdx]? with
  | none => gs
  | some pocket =>
    match pocket.template with
    | none => gs
    | some t =>
      match t.pieceLayout.lookup pieceId with
      | none => gs
      | some cell =>
        match pocket.pieces.findIdx? (fun p => p.pieceId == pieceId) with
        | none => gs
        | some stateIdx =>
          match gs.pieces[pieceId]? with
          | none => gs
          | some piece =>
            let pos := getGridToWorld gs cell.gridCol cell.gridRow
              piece.logicalWidth piece.logicalHeight
            let piece' :=
              { setPieceSolved piece with
                  visible := true
                  angle := 0
                  x := pos.1 + piece.logicalWidth / 2
                  y := pos.2 + piece.logicalHeight / 2 }
            let t' := { t with solvedIds := jsSetInsert t.solvedIds pieceId }
            { gs with
                pieces := gs.pieces.set pieceId piece'
                pockets := gs.pockets.set pocketIdx
                  { pocket with
                      pieces := pocket.pieces.eraseIdx stateIdx
                      template := some t' } }

/-- One iteration of the `autoInsertIfSolved` loop: place a single stashed
piece at its template coordinate (falling back to `correctX`/`correctY`
when the layout has no entry for it). -/
def autoInsertOne (gs : GameState) (t : PocketTemplate) (pieces : List Piece)
    (st : PocketPieceState) : List Piece :=
  match pieces[st.pieceId]? with
  | none => pieces
  | some piece =>
    let piece₁ := { setPieceSolved piece with visible := true, angle := 0 }
    let piece₂ :=
      match t.pieceLayout.lookup st.pieceId with
      | some cell =>
        let pos := getGridToWorld gs cell.gridCol cell.gridRow
          piece.logicalWidth piece.logicalHeight
        { piece₁ with
            x := pos.1 + piece.logicalWidth / 2
            y := pos.2 + piece.logicalHeight / 2 }
      | none => { piece₁ with x := piece.correctX, y := piece.correctY }
    pieces.set st.pieceId piece₂

/-- `PocketManager.autoInsertIfSolved`: when the pocket's piece count
equals the count of still-unsolved template ids, place every stashed piece
and clear both the piece list and the template. -/
def autoInsertIfSolved (gs : GameState) (pocketIdx : Nat) : GameState :=
  match gs.pockets[pocketIdx]? with
  | none => gs
  | some pocket =>
    match pocket.template with
    | none => gs
    | some t =>
      let templateIds := t.pieceLayout.map (·.1)
      let unsolvedIds := templateIds.filter (fun id => ¬ t.solvedIds.contains id)
      if pocket.pieces.length ≠ unsolvedIds.length then gs
      else
        { gs with
            pieces := pocket.pieces.foldl (autoInsertOne gs t) gs.pieces
            pockets := gs.pockets.set pocketIdx
              { pocket with pieces := [], template := none } }

end PocketManager

/-! ## Generic list helper lemmas -/

theorem map_eraseIdx_comm {α β : Type} (f : α → β) :
    ∀ (l : List α) (i : Nat), (l.eraseIdx i).map f = (l.map f).eraseIdx i
  | [], _ => rfl
  | _ :: _, 0 => rfl
  | a :: l, i + 1 => by
    simp only [List.eraseIdx_cons_succ, List.map_cons, map_eraseIdx_comm f l i]

/-- A successful `find?` over `List.range n` returns the least index
satisfying the predicate. -/
theorem find?_range_least {p : Nat → Bool} {n slot : Nat}
    (h : (List.range n).find? p = some slot) :
    p slot = true ∧ slot < n ∧ ∀ j < slot, p j = false := by
  obtain ⟨hps, as, bs, hsplit, has⟩ := List.find?_eq_some.mp h
  have hlen : as.length < n := by
    have := congrArg List.length hsplit
    simp at this
    omega
  have hslot : slot = as.length := by
    have h1 : (List.range n)[as.length]? = some slot := by
      rw [hsplit, List.getElem?_append_right (le_refl _)]
      simp
    rw [List.getElem?_range hlen] at h1
    exact (Option.some_inj.mp h1).symm
  refine ⟨hps, hslot ▸ hlen, ?_⟩
  intro j hj
  have hpre : as = List.range slot := by
    have : as <+: List.range n := ⟨slot :: bs, hsplit.symm⟩
    rw [List.prefix_iff_eq_take.mp this, List.take_range, hslot,
      Nat.min_eq_left (Nat.le_of_lt hlen)]
  have : j ∈ as := by
    rw [hpre]
    exact List.mem_range.mpr hj
  simpa using has j this

/-- Membership is invariant under `jsDedup`. -/
theorem mem_jsDedup {x : Nat} : ∀ {l : List Nat}, x ∈ jsDedup l ↔ x ∈ l
  | [] => by rw [jsDedup]
  | a :: l => by
    rw [jsDedup]
    by_cases hx : x = a
    · subst hx
      simp
    · simp only [List.mem_cons, hx, false_or]
      rw [mem_jsDedup (l := l.filter (fun y => y ≠ a))]
      simp [List.mem_filter, hx]
termination_by l => l.length
decreasing_by
  exact Nat.lt_succ_of_le (List.length_filter_le _ _)

/-- The three empty pockets the `PocketManager` constructor starts with. -/
def initialPockets : List PocketState :=
  [{ id := 0, pieces := [], template := none },
   { id := 1, pieces := [], template := none },
   { id := 2, pieces := [], template := none }]

/-- A concrete board piece used by the witness theorems. -/
def basePiece : Piece :=
  { x := 0, y := 0, angle := 0, correctX := 0, correctY := 0,
    isSolved := false, visible := true, interactive := true, depth := 1,
    scrollX := 1, scrollY := 1, alpha := 1, tint := 0xffffff, scale := 1,
    logicalWidth := 50, logicalHeight := 50 }

/-! ## Claim C9 — canCaptureTemplate -/

/-- C9: with the board attached, `canCaptureTemplate(pocketIdx)` is true
iff the pocket has no template, or every piece id in the template's layout
is currently solved on the main board. -/
theorem canCaptureTemplate_iff (gs : GameState) (pocketIdx : Nat) (pocket : PocketState)
    (hp : gs.pockets[pocketIdx]? = some pocket) :
    PocketManager.canCaptureTemplate gs pocketIdx = true ↔
      (pocket.template = none ∨
        ∀ t, pocket.template = some t →
          ∀ id ∈ t.pieceLayout.map (·.1),
            PocketManager.isSolvedOnBoard gs.pieces id = true) := by
  obtain ⟨pid, ppieces, ptemp⟩ := pocket
  cases ptemp with
  | none =>
    simp only [true_or, iff_true]
    unfold PocketManager.canCaptureTemplate
    rw [hp]
  | some t =>
    have hlhs : PocketManager.canCaptureTemplate gs pocketIdx =
        (if (t.pieceLayout.map (·.1)).length = 0 then true
         else (t.pieceLayout.map (·.1)).all
           (fun id => PocketManager.isSolvedOnBoard gs.pieces id)) := by
      unfold PocketManager.canCaptureTemplate PocketManager.isTemplateComplete
      rw [hp]
    rw [hlhs]
    constructor
    · intro h
      refine Or.inr fun t' ht' => ?_
      simp only [Option.some.injEq] at ht'
      subst ht'
      by_cases hlen : (t.pieceLayout.map (·.1)).length = 0
      · rw [List.length_eq_zero] at hlen
        rw [hlen]
        intro id hid
        cases hid
      · rw [if_neg hlen] at h
        exact List.all_eq_true.mp h
    · rintro (h | h)
      · cases h
      · by_cases hlen : (t.pieceLayout.map (·.1)).length = 0
        · rw [if_pos hlen]
        · rw [if_neg hlen]
          exact List.all_eq_true.mpr (h t rfl)

/-- Witness for C9: a pocket with a one-entry template whose piece is
solved on the board. -/
theorem canCaptureTemplate_iff_witness :
    PocketManager.canCaptureTemplate
      { pieces := [{ basePiece with isSolved := true }]
        pockets := [{ id := 0, pieces := [],
                      template := some { pieceLayout := [(0, { gridRow := 0, gridCol := 0 })],
                                         capturedAt := 0,
                                         crop := { x := 0, y := 0, w := 1, h := 1 },
                                         solvedIds := [] } }]
        boardX := 0, boardY := 0 } 0 = true := by
  rw [canCaptureTemplate_iff
    { pieces := [{ basePiece with isSolved := true }]
      pockets := [{ id := 0, pieces := [],
                    template := some { pieceLayout := [(0, { gridRow := 0, gridCol := 0 })],
                                       capturedAt := 0,
                                       crop := { x := 0, y := 0, w := 1, h := 1 },
                                       solvedIds := [] } }]
      boardX := 0, boardY := 0 } 0
    { id := 0, pieces := [],
      template := some { pieceLayout := [(0, { gridRow := 0, gridCol := 0 })],
                         capturedAt := 0,
                         crop := { x := 0, y := 0, w := 1, h := 1 },
                         solvedIds := [] } } rfl]
  refine Or.inr fun t ht id hid => ?_
  simp only [Option.some.injEq] at ht
  subst ht
  simp only [List.map_cons, List.map_nil, List.mem_singleton] at hid
  subst hid
  rfl

/-! ## Claim C2 — transferPiece atomicity -/

/-- A successful `findNextFreeSlotIndex` returns a slot in `[0,16)` that no
entry of the pocket uses. -/
theorem findNextFreeSlotIndex_free {pocket : PocketState} {slot : Nat}
    (h : PocketManager.findNextFreeSlotIndex pocket = some slot) :
    slot < 16 ∧ slot ∉ pocket.pieces.filterMap (·.slotIndex) ∧
      ∀ j < slot, j ∈ pocket.pieces.filterMap (·.slotIndex) := by
  unfold PocketManager.findNextFreeSlotIndex at h
  obtain ⟨hp, hlt, hmin⟩ := find?_range_least h
  simp only [decide_eq_true_eq] at hp
  refine ⟨hlt, fun hmem => hp (List.elem_iff.mpr hmem), fun j hj => ?_⟩
  have := hmin j hj
  simp only [decide_eq_false_iff_not, Decidable.not_not] at this
  exact List.elem_iff.mp this

/-- C2: `transferPiece` is atomic.  Failure (in particular: target full,
target already holding the piece, source not holding the piece) leaves the
state unchanged; success moves exactly the one entry for `pieceId` from
the source pocket to the end of the target pocket with a fresh free slot
index, touching nothing else. -/
theorem transferPiece_atomic (gs : GameState) (fromIdx toIdx pieceId : Nat)
    (fromP toP : PocketState)
    (hf : gs.pockets[fromIdx]? = some fromP)
    (ht : gs.pockets[toIdx]? = some toP)
    (hnodup : (fromP.pieces.map (·.pieceId)).Nodup) :
    ((PocketManager.transferPiece gs fromIdx toIdx pieceId).1 = false →
      (PocketManager.transferPiece gs fromIdx toIdx pieceId).2 = gs) ∧
    (toP.pieces.length ≥ 16 →
      (PocketManager.transferPiece gs fromIdx toIdx pieceId).1 = false) ∧
    ((∃ p ∈ toP.pieces, p.pieceId = pieceId) →
      (PocketManager.transferPiece gs fromIdx toIdx pieceId).1 = false) ∧
    ((∀ p ∈ fromP.pieces, p.pieceId ≠ pieceId) →
      (PocketManager.transferPiece gs fromIdx toIdx pieceId).1 = false) ∧
    ((PocketManager.transferPiece gs fromIdx toIdx pieceId).1 = true →
      ∃ stateIdx st slotIndex,
        fromP.pieces[stateIdx]? = some st ∧
        st.pieceId = pieceId ∧
        PocketManager.findNextFreeSlotIndex toP = some slotIndex ∧
        slotIndex < 16 ∧
        slotIndex ∉ toP.pieces.filterMap (·.slotIndex) ∧
        (PocketManager.transferPiece gs fromIdx toIdx pieceId).2 =
          { gs with pockets :=
                      List.set
                        (List.set gs.pockets fromIdx
                          { fromP with pieces := fromP.pieces.eraseIdx stateIdx })
                        toIdx
                        { toP with pieces :=
                            toP.pieces ++ [{ st with slotIndex := some slotIndex }] } } ∧
        pieceId ∈ (toP.pieces ++ [{ st with slotIndex := some slotIndex }]).map
            (fun p : PocketPieceState => p.pieceId) ∧
        pieceId ∉ (fromP.pieces.eraseIdx stateIdx).map (·.pieceId)) := by
  by_cases h0 : fromIdx = toIdx
  · have hres : PocketManager.transferPiece gs fromIdx toIdx pieceId = (false, gs) := by
      unfold PocketManager.transferPiece
      rw [if_pos (by simp [h0])]
    rw [hres]
    exact ⟨fun _ => rfl, fun _ => rfl, fun _ => rfl, fun _ => rfl, fun h => by simp at h⟩
  · have key : PocketManager.transferPiece gs fromIdx toIdx pieceId =
        (if toP.pieces.length ≥ 16 then (false, gs)
         else if toP.pieces.any (fun p => p.pieceId == pieceId) then (false, gs)
         else
           match fromP.pieces.findIdx? (fun p => p.pieceId == pieceId) with
           | none => (false, gs)
           | some stateIdx =>
             match fromP.pieces[stateIdx]? with
             | none => (false, gs)
             | some st =>
               match PocketManager.findNextFreeSlotIndex toP with
               | none => (false, gs)
               | some slotIndex =>
                 (true,
                   { gs with pockets := (gs.pockets.set fromIdx
                                          { fromP with
                                              pieces := fromP.pieces.eraseIdx stateIdx }).set toIdx
                                          { toP with
                                              pieces := toP.pieces ++
                                                [{ st with slotIndex := some slotIndex }] } })) := by
      unfold PocketManager.transferPiece
      rw [if_neg (show ¬((fromIdx == toIdx) = true) by simp [h0]), hf, ht]
    by_cases hfull : toP.pieces.length ≥ 16
    · rw [if_pos hfull] at key
      rw [key]
      exact ⟨fun _ => rfl, fun _ => rfl, fun _ => rfl, fun _ => rfl, fun h => by simp at h⟩
    rw [if_neg hfull] at key
    by_cases hany : toP.pieces.any (fun p => p.pieceId == pieceId) = true
    · rw [if_pos hany] at key
      rw [key]
      exact ⟨fun _ => rfl, fun _ => rfl, fun _ => rfl, fun _ => rfl, fun h => by simp at h⟩
    rw [if_neg hany] at key
    cases hfind : fromP.pieces.findIdx? (fun p => p.pieceId == pieceId) with
    | none =>
      rw [hfind] at key
      rw [key]
      exact ⟨fun _ => rfl, fun _ => rfl, fun _ => rfl, fun _ => rfl, fun h => by simp at h⟩
    | some stateIdx =>
      rw [hfind] at key
      simp only [] at key
      obtain ⟨hlt, hpst, -⟩ := List.findIdx?_eq_some_iff_getElem.mp hfind
      have hget : fromP.pieces[stateIdx]? = some (fromP.pieces[stateIdx]) :=
        List.getElem?_eq_getElem hlt
      rw [hget] at key
      simp only [] at key
      have hpid : (fromP.pieces[stateIdx]).pieceId = pieceId := by simpa using hpst
      cases hslot : PocketManager.findNextFreeSlotIndex toP with
      | none =>
        rw [hslot] at key
        rw [key]
        exact ⟨fun _ => rfl, fun _ => rfl, fun _ => rfl, fun _ => rfl, fun h => by simp at h⟩
      | some slotIndex =>
        rw [hslot] at key
        simp only [] at key
        rw [key]
        obtain ⟨hs16, hsfree, -⟩ := findNextFreeSlotIndex_free hslot
        refine ⟨fun h => by simp at h, fun h => absurd h hfull, ?_, ?_, fun _ => ?_⟩
        · rintro ⟨p, hp, hpe⟩
          exact absurd (List.any_eq_true.mpr ⟨p, hp, by simp [hpe]⟩) hany
        · intro hall
          exact absurd hpid (hall _ (List.getElem_mem hlt))
        · refine ⟨stateIdx, fromP.pieces[stateIdx], slotIndex, hget, hpid, rfl,
            hs16, hsfree, rfl, ?_, ?_⟩
          · rw [List.map_append]
            refine List.mem_append.mpr (Or.inr ?_)
            simp [hpid]
          · rw [map_eraseIdx_comm]
            intro hmem
            obtain ⟨j, hj, hjget⟩ := List.mem_eraseIdx_iff_getElem?.mp hmem
            have hsi : (fromP.pieces.map (·.pieceId))[stateIdx]? = some pieceId := by
              rw [List.getElem?_map, hget]
              simp [hpid]
            have heq : stateIdx = j :=
              List.getElem?_inj (by simpa using hlt) hnodup (hsi.trans hjget.symm)
            exact hj heq.symm

/-- Witness for C2: transfer piece 5 from pocket 0 to pocket 1. -/
theorem transferPiece_atomic_witness :
    (PocketManager.transferPiece
      { pieces := [], boardX := 0, boardY := 0,
        pockets := [{ id := 0,
                      pieces := [{ pieceId := 5, angle := 0, slotIndex := some 0,
                                   lastWorldPos := none }],
                      template := none },
                    { id := 1, pieces := [], template := none },
                    { id := 2, pieces := [], template := none }] } 0 1 5).1 = true := by
  have h := transferPiece_atomic
    { pieces := [], boardX := 0, boardY := 0,
      pockets := [{ id := 0,
                    pieces := [{ pieceId := 5, angle := 0, slotIndex := some 0,
                                 lastWorldPos := none }],
                    template := none },
                  { id := 1, pieces := [], template := none },
                  { id := 2, pieces := [], template := none }] } 0 1 5
    { id := 0,
      pieces := [{ pieceId := 5, angle := 0, slotIndex := some 0, lastWorldPos := none }],
      template := none }
    { id := 1, pieces := [], template := none } rfl rfl (by decide)
  by_contra hne
  have hfalse : (PocketManager.transferPiece
      { pieces := [], boardX := 0, boardY := 0,
        pockets := [{ id := 0,
                      pieces := [{ pieceId := 5, angle := 0, slotIndex := some 0,
                                   lastWorldPos := none }],
                      template := none },
                    { id := 1, pieces := [], template := none },
                    { id := 2, pieces := [], template := none }] } 0 1 5).1 = false :=
    Bool.not_eq_true _ ▸ (by simpa using hne)
  have := h.1 hfalse
  exact absurd (congrArg (fun gs => gs.pockets) this) (by decide)

/-! ## stashPiece characterization (shared by the stash claims) -/

/-- Full characterization of `stashPiece` against a valid pocket index and
board piece: failure leaves the state unchanged (and is forced by a full
pocket or a duplicate in the target pocket); success appends the entry
with the least free slot of the target pocket, records the piece's current
position and angle as `lastWorldPos`, and hides/disables the piece. -/
theorem stashPiece_spec (gs : GameState) (pieceId targetPocket : Nat)
    (pocket : PocketState) (piece : Piece)
    (hp : gs.pockets[targetPocket]? = some pocket)
    (hq : gs.pieces[pieceId]? = some piece) :
    ((PocketManager.stashPiece gs pieceId targetPocket).1 = false →
      (PocketManager.stashPiece gs pieceId targetPocket).2 = gs) ∧
    (pocket.pieces.length ≥ 16 →
      (PocketManager.stashPiece gs pieceId targetPocket).1 = false) ∧
    ((∃ p ∈ pocket.pieces, p.pieceId = pieceId) →
      (PocketManager.stashPiece gs pieceId targetPocket).1 = false) ∧
    ((PocketManager.stashPiece gs pieceId targetPocket).1 = true →
      pocket.pieces.length < 16 ∧
      (∀ p ∈ pocket.pieces, p.pieceId ≠ pieceId) ∧
      ∃ slotIndex,
        PocketManager.findNextFreeSlotIndex pocket = some slotIndex ∧
        slotIndex < 16 ∧
        slotIndex ∉ pocket.pieces.filterMap (·.slotIndex) ∧
        (∀ j < slotIndex, j ∈ pocket.pieces.filterMap (·.slotIndex)) ∧
        (PocketManager.stashPiece gs pieceId targetPocket).2 =
          { gs with
              pieces := gs.pieces.set pieceId
                { piece with interactive := false, visible := false, scale := 1, alpha := 1 }
              pockets := gs.pockets.set targetPocket
                { pocket with
                    pieces := pocket.pieces ++
                      [{ pieceId := pieceId, angle := piece.angle,
                         slotIndex := some slotIndex,
                         lastWorldPos := some { x := piece.x, y := piece.y,
                                                angle := piece.angle } }] } }) := by
  have key : PocketManager.stashPiece gs pieceId targetPocket =
      (if pocket.pieces.length ≥ 16 then (false, gs)
       else if pocket.pieces.any (fun p => p.pieceId == pieceId) then (false, gs)
       else
         match PocketManager.findNextFreeSlotIndex pocket with
         | none => (false, gs)
         | some slotIndex =>
           (true,
             { gs with
                 pieces := gs.pieces.set pieceId
                   { piece with
                       interactive := false, visible := false, scale := 1, alpha := 1 }
                 pockets := gs.pockets.set targetPocket
                   { pocket with
                       pieces := pocket.pieces ++
                         [{ pieceId := pieceId, angle := piece.angle,
                            slotIndex := some slotIndex,
                            lastWorldPos := some { x := piece.x, y := piece.y,
                                                   angle := piece.angle } }] } })) := by
    unfold PocketManager.stashPiece
    rw [hp, hq]
  by_cases hfull : pocket.pieces.length ≥ 16
  · rw [if_pos hfull] at key
    rw [key]
    exact ⟨fun _ => rfl, fun _ => rfl, fun _ => rfl, fun h => by simp at h⟩
  rw [if_neg hfull] at key
  by_cases hany : pocket.pieces.any (fun p => p.pieceId == pieceId) = true
  · rw [if_pos hany] at key
    rw [key]
    exact ⟨fun _ => rfl, fun _ => rfl, fun _ => rfl, fun h => by simp at h⟩
  rw [if_neg hany] at key
  cases hslot : PocketManager.findNextFreeSlotIndex pocket with
  | none =>
    rw [hslot] at key
    rw [key]
    exact ⟨fun _ => rfl, fun _ => rfl, fun _ => rfl, fun h => by simp at h⟩
  | some slotIndex =>
    rw [hslot] at key
    simp only [] at key
    rw [key]
    obtain ⟨hs16, hsfree, hleast⟩ := findNextFreeSlotIndex_free hslot
    refine ⟨fun h => by simp at h, fun h => absurd h hfull, ?_, fun _ => ?_⟩
    · rintro ⟨p, hpm, hpe⟩
      exact absurd (List.any_eq_true.mpr ⟨p, hpm, by simp [hpe]⟩) hany
    · refine ⟨Nat.lt_of_not_le (fun h => hfull h), ?_, slotIndex, rfl, hs16, hsfree, hleast, rfl⟩
      intro p hpm hpe
      exact hany (List.any_eq_true.mpr ⟨p, hpm, by simp [hpe]⟩)

/-! ## Claim C7 — stash / retrieve round trip -/

/-- C7: a successful `stashPiece` followed immediately by `retrievePiece`
for the same id restores the piece's pre-stash `x`, `y` and `angle`, with
`isSolved = false`, visible, default board interaction enabled, and no
entry for the id left in the pocket. -/
theorem stash_retrieve_roundtrip (gs : GameState) (pieceId targetPocket : Nat)
    (pocket : PocketState) (piece : Piece) (fallback : Rat × Rat)
    (hp : gs.pockets[targetPocket]? = some pocket)
    (hq : gs.pieces[pieceId]? = some piece)
    (hsucc : (PocketManager.stashPiece gs pieceId targetPocket).1 = true) :
    ∃ p',
      (PocketManager.retrievePiece (PocketManager.stashPiece gs pieceId targetPocket).2
        targetPocket pieceId fallback).pieces[pieceId]? = some p' ∧
      p'.x = piece.x ∧ p'.y = piece.y ∧ p'.angle = piece.angle ∧
      p'.isSolved = false ∧ p'.visible = true ∧ p'.interactive = true ∧
      ∀ pocket2,
        (PocketManager.retrievePiece (PocketManager.stashPiece gs pieceId targetPocket).2
          targetPocket pieceId fallback).pockets[targetPocket]? = some pocket2 →
        ∀ q ∈ pocket2.pieces, q.pieceId ≠ pieceId := by
  obtain ⟨-, -, -, hspec⟩ := stashPiece_spec gs pieceId targetPocket pocket piece hp hq
  obtain ⟨hlen, hnotin, slotIndex, hslot, -, -, -, hgs1⟩ := hspec hsucc
  obtain ⟨hplt, -⟩ := List.getElem?_eq_some.mp hp
  obtain ⟨hqlt, -⟩ := List.getElem?_eq_some.mp hq
  rw [hgs1]
  have h1 : (gs.pockets.set targetPocket
      { pocket with
          pieces := pocket.pieces ++
            [{ pieceId := pieceId, angle := piece.angle,
               slotIndex := some slotIndex,
               lastWorldPos := some { x := piece.x, y := piece.y,
                                      angle := piece.angle } }] })[targetPocket]? =
      some { pocket with
               pieces := pocket.pieces ++
                 [{ pieceId := pieceId, angle := piece.angle,
                    slotIndex := some slotIndex,
                    lastWorldPos := some { x := piece.x, y := piece.y,
                                           angle := piece.angle } }] } :=
    List.getElem?_set_self hplt
  have hfindnone : pocket.pieces.findIdx? (fun p => p.pieceId == pieceId) = none :=
    List.findIdx?_eq_none_iff.mpr (fun x hx => by simp [hnotin x hx])
  have hfind : (pocket.pieces ++
      [({ pieceId := pieceId, angle := piece.angle,
          slotIndex := some slotIndex,
          lastWorldPos := some { x := piece.x, y := piece.y,
                                 angle := piece.angle } } : PocketPieceState)]).findIdx?
        (fun p => p.pieceId == pieceId) = some pocket.pieces.length := by
    rw [List.findIdx?_append, hfindnone]
    simp [List.findIdx?_cons]
  have hget2 : (pocket.pieces ++
      [({ pieceId := pieceId, angle := piece.angle,
          slotIndex := some slotIndex,
          lastWorldPos := some { x := piece.x, y := piece.y,
                                 angle := piece.angle } } : PocketPieceState)])[pocket.pieces.length]? =
      some { pieceId := pieceId, angle := piece.angle,
             slotIndex := some slotIndex,
             lastWorldPos := some { x := piece.x, y := piece.y,
                                    angle := piece.angle } } := by
    rw [List.getElem?_append_right (le_refl _)]
    simp
  have hget3 : (gs.pieces.set pieceId
      { piece with
          interactive := false, visible := false, scale := 1, alpha := 1 })[pieceId]? =
      some { piece with
          interactive := false, visible := false, scale := 1, alpha := 1 } :=
    List.getElem?_set_self hqlt
  unfold PocketManager.retrievePiece
  simp only []
  rw [h1]
  simp only []
  rw [hfind]
  simp only []
  rw [hget2]
  simp only []
  rw [hget3]
  simp only []
  refine ⟨_, List.getElem?_set_self (by simpa using hqlt), rfl, rfl, rfl, rfl, rfl, rfl, ?_⟩
  intro pocket2 hpock2
  rw [List.set_set, List.getElem?_set_self hplt] at hpock2
  cases hpock2
  intro q hqm
  rw [List.eraseIdx_append_of_length_le (le_refl _)] at hqm
  simp only [Nat.sub_self, List.eraseIdx_cons_zero, List.append_nil] at hqm
  exact hnotin q hqm

/-- Witness for C7 at a concrete one-piece board. -/
theorem stash_retrieve_roundtrip_witness :
    ∃ p',
      (PocketManager.retrievePiece
        (PocketManager.stashPiece
          { pieces := [{ basePiece with x := 200, y := 100, angle := 90 }],
            pockets := initialPockets, boardX := 0, boardY := 0 } 0 0).2
        0 0 (0, 0)).pieces[0]? = some p' ∧
      p'.x = ({ basePiece with x := 200, y := 100, angle := 90 } : Piece).x ∧
      p'.y = ({ basePiece with x := 200, y := 100, angle := 90 } : Piece).y ∧
      p'.angle = ({ basePiece with x := 200, y := 100, angle := 90 } : Piece).angle ∧
      p'.isSolved = false ∧ p'.visible = true ∧ p'.interactive = true ∧
      ∀ pocket2,
        (PocketManager.retrievePiece
          (PocketManager.stashPiece
            { pieces := [{ basePiece with x := 200, y := 100, angle := 90 }],
              pockets := initialPockets, boardX := 0, boardY := 0 } 0 0).2
          0 0 (0, 0)).pockets[0]? = some pocket2 →
        ∀ q ∈ pocket2.pieces, q.pieceId ≠ 0 :=
  stash_retrieve_roundtrip
    { pieces := [{ basePiece with x := 200, y := 100, angle := 90 }],
      pockets := initialPockets, boardX := 0, boardY := 0 }
    0 0 { id := 0, pieces := [], template := none }
    { basePiece with x := 200, y := 100, angle := 90 } (0, 0) rfl rfl (by decide)

/-! ## Pocket invariants and operation sequences (claim C5) -/

/-- One mutating `PocketManager` call out of stash / transfer / retrieve. -/
inductive PocketOp where
  | stash (pieceId targetPocket : Nat)
  | transfer (fromIdx toIdx pieceId : Nat)
  | retrieve (pocketIdx pieceId : Nat) (fallback : Rat × Rat)
  | retrieveAll (pocketIdx : Nat) (fallback : Nat → Rat × Rat)

/-- Apply one `PocketOp` to the game state. -/
def applyPocketOp (gs : GameState) : PocketOp → GameState
  | .stash pieceId targetPocket => (PocketManager.stashPiece gs pieceId targetPocket).2
  | .transfer fromIdx toIdx pieceId =>
      (PocketManager.transferPiece gs fromIdx toIdx pieceId).2
  | .retrieve pocketIdx pieceId fallback =>
      PocketManager.retrievePiece gs pocketIdx pieceId fallback
  | .retrieveAll pocketIdx fallback => PocketManager.retrieveAll gs pocketIdx fallback

/-- The per-pocket data invariant: piece ids occur at most once in the
pocket, assigned slot indices are pairwise distinct and lie in `[0,16)`. -/
def PocketInv (pocket : PocketState) : Prop :=
  (pocket.pieces.map (·.pieceId)).Nodup ∧
  (pocket.pieces.filterMap (·.slotIndex)).Nodup ∧
  ∀ s ∈ pocket.pieces.filterMap (·.slotIndex), s < 16

/-- The invariant for every pocket of the state. -/
def InvAll (gs : GameState) : Prop :=
  ∀ pocket ∈ gs.pockets, PocketInv pocket

theorem invAll_of_set {ps : List PocketState} {i : Nat} {X : PocketState}
    (h : ∀ p ∈ ps, PocketInv p) (hX : PocketInv X) :
    ∀ p ∈ ps.set i X, PocketInv p := fun p hp =>
  (List.mem_or_eq_of_mem_set hp).elim (h p) (fun he => he ▸ hX)

theorem pocketInv_of_getElem? {ps : List PocketState} {i : Nat} {pocket : PocketState}
    (h : ∀ p ∈ ps, PocketInv p) (hp : ps[i]? = some pocket) : PocketInv pocket := by
  obtain ⟨hlt, heq⟩ := List.getElem?_eq_some.mp hp
  exact h pocket (heq ▸ List.getElem_mem hlt)

/-- Appending a fresh entry (unused id, unused slot below 16) preserves the
pocket invariant. -/
theorem pocketInv_append {pocket : PocketState} (hinv : PocketInv pocket)
    {pieceId slotIndex : Nat} (a : Rat) (lwp : Option LastWorldPos)
    (hid : ∀ p ∈ pocket.pieces, p.pieceId ≠ pieceId)
    (hfree : slotIndex ∉ pocket.pieces.filterMap (·.slotIndex))
    (hs16 : slotIndex < 16) :
    PocketInv { pocket with
                  pieces := pocket.pieces ++
                    [{ pieceId := pieceId, angle := a, slotIndex := some slotIndex,
                       lastWorldPos := lwp }] } := by
  obtain ⟨hids, hslots, hbound⟩ := hinv
  refine ⟨?_, ?_, ?_⟩
  · rw [List.map_append, List.nodup_append]
    refine ⟨hids, List.nodup_singleton _, ?_⟩
    rw [List.map_singleton, List.disjoint_singleton]
    intro hmem
    obtain ⟨p, hpm, hpe⟩ := List.mem_map.mp hmem
    exact hid p hpm hpe
  · rw [List.filterMap_append, List.nodup_append]
    refine ⟨hslots, by simp, ?_⟩
    intro s hs hs'
    simp only [List.filterMap_cons, List.filterMap_nil] at hs'
    simp at hs'
    exact hfree (hs' ▸ hs)
  · intro s hs
    rw [List.filterMap_append] at hs
    rcases List.mem_append.mp hs with h | h
    · exact hbound s h
    · simp only [List.filterMap_cons, List.filterMap_nil] at h
      simp at h
      exact h ▸ hs16
/-- Removing an entry preserves the pocket invariant. -/
theorem pocketInv_eraseIdx {pocket : PocketState} (hinv : PocketInv pocket) (i : Nat) :
    PocketInv { pocket with pieces := pocket.pieces.eraseIdx i } := by
  obtain ⟨hids, hslots, hbound⟩ := hinv
  refine ⟨?_, ?_, ?_⟩
  · rw [map_eraseIdx_comm]
    exact hids.eraseIdx i
  · exact (((List.eraseIdx_sublist _ i).filterMap _)).nodup hslots
  · intro s hs
    exact hbound s (((List.eraseIdx_sublist _ i).filterMap _).subset hs)

/-- Clearing the piece list preserves the pocket invariant. -/
theorem pocketInv_clear {pocket : PocketState} (t : Option PocketTemplate) :
    PocketInv { pocket with pieces := [], template := t } := by
  refine ⟨List.nodup_nil, List.nodup_nil, ?_⟩
  intro s hs
  simp at hs

/-- Either `stashPiece` leaves the state unchanged, or it appends a fresh
entry to a valid target pocket. -/
theorem stashPiece_inv_shape (gs : GameState) (pieceId targetPocket : Nat) :
    (PocketManager.stashPiece gs pieceId targetPocket).2 = gs ∨
    ∃ pocket piece slotIndex,
      gs.pockets[targetPocket]? = some pocket ∧
      gs.pieces[pieceId]? = some piece ∧
      (∀ p ∈ pocket.pieces, p.pieceId ≠ pieceId) ∧
      slotIndex ∉ pocket.pieces.filterMap (·.slotIndex) ∧
      slotIndex < 16 ∧
      (PocketManager.stashPiece gs pieceId targetPocket).2 =
        { gs with
            pieces := gs.pieces.set pieceId
              { piece with
                  interactive := false, visible := false, scale := 1, alpha := 1 }
            pockets := gs.pockets.set targetPocket
              { pocket with
                  pieces := pocket.pieces ++
                    [{ pieceId := pieceId, angle := piece.angle,
                       slotIndex := some slotIndex,
                       lastWorldPos := some { x := piece.x, y := piece.y,
                                              angle := piece.angle } }] } } := by
  cases hp : gs.pockets[targetPocket]? with
  | none =>
    left
    have key : PocketManager.stashPiece gs pieceId targetPocket = (false, gs) := by
      unfold PocketManager.stashPiece
      rw [hp]
    rw [key]
  | some pocket =>
    cases hq : gs.pieces[pieceId]? with
    | none =>
      left
      have key : PocketManager.stashPiece gs pieceId targetPocket = (false, gs) := by
        unfold PocketManager.stashPiece
        rw [hp, hq]
      rw [key]
    | some piece =>
      have spec := stashPiece_spec gs pieceId targetPocket pocket piece hp hq
      by_cases hb : (PocketManager.stashPiece gs pieceId targetPocket).1 = true
      · obtain ⟨-, hne, slotIndex, -, hs16, hfree, -, heq⟩ := spec.2.2.2 hb
        exact Or.inr ⟨pocket, piece, slotIndex, rfl, rfl, hne, hfree, hs16, heq⟩
      · exact Or.inl (spec.1 (by simpa using hb))

/-- Either `transferPiece` leaves the state unchanged, or it moves one
entry between two valid pockets, erasing in the source and appending a
fresh-slot entry in the target.  (The `InvAll` hypothesis supplies the
id-uniqueness of the source pocket.) -/
theorem transferPiece_inv_shape (gs : GameState) (fromIdx toIdx pieceId : Nat)
    (hinv : InvAll gs) :
    (PocketManager.transferPiece gs fromIdx toIdx pieceId).2 = gs ∨
    ∃ fromP toP stateIdx st slotIndex,
      gs.pockets[fromIdx]? = some fromP ∧
      gs.pockets[toIdx]? = some toP ∧
      fromP.pieces[stateIdx]? = some st ∧
      st.pieceId = pieceId ∧
      (∀ p ∈ toP.pieces, p.pieceId ≠ pieceId) ∧
      slotIndex ∉ toP.pieces.filterMap (·.slotIndex) ∧
      slotIndex < 16 ∧
      (PocketManager.transferPiece gs fromIdx toIdx pieceId).2 =
        { gs with pockets :=
                    List.set
                      (List.set gs.pockets fromIdx
                        { fromP with pieces := fromP.pieces.eraseIdx stateIdx })
                      toIdx
                      { toP with pieces :=
                          toP.pieces ++
                            [{ st with slotIndex := some slotIndex }] } } := by
  by_cases h0 : fromIdx = toIdx
  · left
    have key : PocketManager.transferPiece gs fromIdx toIdx pieceId = (false, gs) := by
      unfold PocketManager.transferPiece
      rw [if_pos (by simp [h0])]
    rw [key]
  cases hf : gs.pockets[fromIdx]? with
  | none =>
    left
    have key : PocketManager.transferPiece gs fromIdx toIdx pieceId = (false, gs) := by
      unfold PocketManager.transferPiece
      rw [if_neg (show ¬((fromIdx == toIdx) = true) by simp [h0]), hf]
    rw [key]
  | some fromP =>
    cases ht : gs.pockets[toIdx]? with
    | none =>
      left
      have key : PocketManager.transferPiece gs fromIdx toIdx pieceId = (false, gs) := by
        unfold PocketManager.transferPiece
        rw [if_neg (show ¬((fromIdx == toIdx) = true) by simp [h0]), hf, ht]
      rw [key]
    | some toP =>
      have hnodup : (fromP.pieces.map (·.pieceId)).Nodup :=
        (pocketInv_of_getElem? hinv hf).1
      have spec := transferPiece_atomic gs fromIdx toIdx pieceId fromP toP hf ht hnodup
      by_cases hb : (PocketManager.transferPiece gs fromIdx toIdx pieceId).1 = true
      · obtain ⟨stateIdx, st, slotIndex, hget, hpid, hslot, hs16, hfree, heq, -, -⟩ :=
          spec.2.2.2.2 hb
        refine Or.inr ⟨fromP, toP, stateIdx, st, slotIndex, rfl, rfl, hget, hpid,
          ?_, hfree, hs16, heq⟩
        intro p hpm hpe
        have hfalse := spec.2.2.1 ⟨p, hpm, hpe⟩
        rw [hfalse] at hb
        cases hb
      · exact Or.inl (spec.1 (by simpa using hb))

/-- `retrievePiece` either leaves the pockets unchanged or erases one
entry of a valid pocket. -/
theorem retrievePiece_inv_shape (gs : GameState) (pocketIdx pieceId : Nat)
    (fallback : Rat × Rat) :
    (PocketManager.retrievePiece gs pocketIdx pieceId fallback).pockets = gs.pockets ∨
    ∃ pocket stateIdx,
      gs.pockets[pocketIdx]? = some pocket ∧
      (PocketManager.retrievePiece gs pocketIdx pieceId fallback).pockets =
        gs.pockets.set pocketIdx
          { pocket with pieces := pocket.pieces.eraseIdx stateIdx } := by
  cases hp : gs.pockets[pocketIdx]? with
  | none =>
    left
    unfold PocketManager.retrievePiece
    rw [hp]
  | some pocket =>
    cases hfind : pocket.pieces.findIdx? (fun p => p.pieceId == pieceId) with
    | none =>
      left
      unfold PocketManager.retrievePiece
      rw [hp]
      simp only []
      rw [hfind]
    | some stateIdx =>
      cases hst : pocket.pieces[stateIdx]? with
      | none =>
        left
        unfold PocketManager.retrievePiece
        rw [hp]
        simp only []
        rw [hfind]
        simp only []
        rw [hst]
      | some st =>
        cases hpc : gs.pieces[st.pieceId]? with
        | none =>
          left
          unfold PocketManager.retrievePiece
          rw [hp]
          simp only []
          rw [hfind]
          simp only []
          rw [hst]
          simp only []
          rw [hpc]
        | some piece =>
          right
          refine ⟨pocket, stateIdx, rfl, ?_⟩
          unfold PocketManager.retrievePiece
          rw [hp]
          simp only []
          rw [hfind]
          simp only []
          rw [hst]
          simp only []
          rw [hpc]

/-- `retrieveAll` either leaves the pockets unchanged or clears a valid
pocket's piece list. -/
theorem retrieveAll_inv_shape (gs : GameState) (pocketIdx : Nat)
    (fallback : Nat → Rat × Rat) :
    (PocketManager.retrieveAll gs pocketIdx fallback).pockets = gs.pockets ∨
    ∃ pocket,
      gs.pockets[pocketIdx]? = some pocket ∧
      (PocketManager.retrieveAll gs pocketIdx fallback).pockets =
        gs.pockets.set pocketIdx { pocket with pieces := [] } := by
  cases hp : gs.pockets[pocketIdx]? with
  | none =>
    left
    unfold PocketManager.retrieveAll
    rw [hp]
  | some pocket =>
    by_cases hlen : pocket.pieces.length = 0
    · left
      unfold PocketManager.retrieveAll
      rw [hp]
      simp only []
      rw [if_pos hlen]
    · right
      refine ⟨pocket, rfl, ?_⟩
      unfold PocketManager.retrieveAll
      rw [hp]
      simp only []
      rw [if_neg hlen]

/-- Every single stash / transfer / retrieve call preserves the pocket
invariants. -/
theorem applyPocketOp_inv (gs : GameState) (op : PocketOp) (hinv : InvAll gs) :
    InvAll (applyPocketOp gs op) := by
  cases op with
  | stash pieceId targetPocket =>
    show InvAll (PocketManager.stashPiece gs pieceId targetPocket).2
    rcases stashPiece_inv_shape gs pieceId targetPocket with heq |
      ⟨pocket, piece, slotIndex, hp, hq, hne, hfree, hs16, heq⟩
    · rw [heq]
      exact hinv
    · rw [heq]
      exact invAll_of_set hinv
        (pocketInv_append (pocketInv_of_getElem? hinv hp) piece.angle
          (some { x := piece.x, y := piece.y, angle := piece.angle }) hne hfree hs16)
  | transfer fromIdx toIdx pieceId =>
    show InvAll (PocketManager.transferPiece gs fromIdx toIdx pieceId).2
    rcases transferPiece_inv_shape gs fromIdx toIdx pieceId hinv with heq |
      ⟨fromP, toP, stateIdx, st, slotIndex, hf, ht, hget, hpid, hne, hfree, hs16, heq⟩
    · rw [heq]
      exact hinv
    · rw [heq]
      refine invAll_of_set (invAll_of_set hinv
        (pocketInv_eraseIdx (pocketInv_of_getElem? hinv hf) stateIdx)) ?_
      have hne' : ∀ p ∈ toP.pieces, p.pieceId ≠ st.pieceId := by
        rw [hpid]
        exact hne
      exact pocketInv_append (pocketInv_of_getElem? hinv ht) st.angle st.lastWorldPos
        hne' hfree hs16
  | retrieve pocketIdx pieceId fallback =>
    show InvAll (PocketManager.retrievePiece gs pocketIdx pieceId fallback)
    intro p hp
    rcases retrievePiece_inv_shape gs pocketIdx pieceId fallback with heq |
      ⟨pocket, stateIdx, hpk, heq⟩
    · rw [heq] at hp
      exact hinv p hp
    · rw [heq] at hp
      exact invAll_of_set hinv
        (pocketInv_eraseIdx (pocketInv_of_getElem? hinv hpk) stateIdx) p hp
  | retrieveAll pocketIdx fallback =>
    show InvAll (PocketManager.retrieveAll gs pocketIdx fallback)
    intro p hp
    rcases retrieveAll_inv_shape gs pocketIdx fallback with heq | ⟨pocket, hpk, heq⟩
    · rw [heq] at hp
      exact hinv p hp
    · rw [heq] at hp
      refine invAll_of_set hinv ?_ p hp
      exact ⟨List.nodup_nil, List.nodup_nil, by intro s hs; simp at hs⟩

/-- The invariants are preserved by any sequence of pocket operations. -/
theorem foldl_applyPocketOp_inv (ops : List PocketOp) :
    ∀ gs : GameState, InvAll gs → InvAll (ops.foldl applyPocketOp gs) := by
  induction ops with
  | nil => exact fun gs h => h
  | cons op ops ih =>
    intro gs h
    rw [List.foldl_cons]
    exact ih _ (applyPocketOp_inv gs op h)

/-! ## Claim C5 — stashPiece and the pocket invariants -/

/-- C5 as stated is false on the code: `stashPiece` only rejects a piece
already present in the *target* pocket.  Stashing piece 0 into pocket 0
and then into pocket 1 succeeds, leaving id 0 in two pockets at once. -/
theorem stashPiece_any_pocket_counterexample :
    (PocketManager.stashPiece
      { pieces := [basePiece], pockets := initialPockets, boardX := 0, boardY := 0 }
      0 0).1 = true ∧
    (PocketManager.stashPiece
      (PocketManager.stashPiece
        { pieces := [basePiece], pockets := initialPockets, boardX := 0, boardY := 0 }
        0 0).2 0 1).1 = true ∧
    (PocketManager.stashPiece
      (PocketManager.stashPiece
        { pieces := [basePiece], pockets := initialPockets, boardX := 0, boardY := 0 }
        0 0).2 0 1).2.pockets.map (fun p => p.pieces.map (·.pieceId)) =
      [[0], [0], []] := by
  decide

/-- C5 amended: `stashPiece` fails (unchanged state) iff the target pocket
is full or already holds the piece id (a piece stashed in a *different*
pocket is not rejected); success assigns the lowest unused slot of the
target pocket, records `lastWorldPos`, hides and disables the piece; and
the per-pocket invariants (unique ids per pocket, unique slot indices in
`[0,16)`) hold of the initial pockets and are preserved by any sequence of
stash / transfer / retrieve operations. -/
theorem stashPiece_amended (gs : GameState) (pieceId targetPocket : Nat)
    (pocket : PocketState) (piece : Piece)
    (hp : gs.pockets[targetPocket]? = some pocket)
    (hq : gs.pieces[pieceId]? = some piece) :
    ((pocket.pieces.length ≥ 16 ∨ ∃ p ∈ pocket.pieces, p.pieceId = pieceId) →
      (PocketManager.stashPiece gs pieceId targetPocket).1 = false) ∧
    ((PocketManager.stashPiece gs pieceId targetPocket).1 = false →
      (PocketManager.stashPiece gs pieceId targetPocket).2 = gs) ∧
    ((PocketManager.stashPiece gs pieceId targetPocket).1 = true →
      ∃ slotIndex,
        slotIndex < 16 ∧
        slotIndex ∉ pocket.pieces.filterMap (·.slotIndex) ∧
        (∀ j < slotIndex, j ∈ pocket.pieces.filterMap (·.slotIndex)) ∧
        (PocketManager.stashPiece gs pieceId targetPocket).2 =
          { gs with
              pieces := gs.pieces.set pieceId
                { piece with
                    interactive := false, visible := false, scale := 1, alpha := 1 }
              pockets := gs.pockets.set targetPocket
                { pocket with
                    pieces := pocket.pieces ++
                      [{ pieceId := pieceId, angle := piece.angle,
                         slotIndex := some slotIndex,
                         lastWorldPos := some { x := piece.x, y := piece.y,
                                                angle := piece.angle } }] } }) ∧
    (∀ p ∈ initialPockets, PocketInv p) ∧
    (∀ gs₀ : GameState, InvAll gs₀ →
      ∀ ops : List PocketOp, InvAll (ops.foldl applyPocketOp gs₀)) := by
  obtain ⟨h1, h2, h3, h4⟩ := stashPiece_spec gs pieceId targetPocket pocket piece hp hq
  refine ⟨?_, h1, ?_, ?_, ?_⟩
  · rintro (hfull | hdup)
    · exact h2 hfull
    · exact h3 hdup
  · intro hb
    obtain ⟨-, -, slotIndex, -, hs16, hfree, hleast, heq⟩ := h4 hb
    exact ⟨slotIndex, hs16, hfree, hleast, heq⟩
  · intro p hp'
    simp only [initialPockets, List.mem_cons, List.not_mem_nil, or_false] at hp'
    rcases hp' with h | h | h <;> subst h <;>
      exact ⟨List.nodup_nil, List.nodup_nil, by intro s hs; simp at hs⟩
  · exact fun gs₀ h ops => foldl_applyPocketOp_inv ops gs₀ h

/-- Witness for the amended C5: restashing a piece already in the target
pocket is rejected. -/
theorem stashPiece_amended_witness :
    (PocketManager.stashPiece
      (PocketManager.stashPiece
        { pieces := [basePiece], pockets := initialPockets, boardX := 0, boardY := 0 }
        0 0).2 0 0).1 = false :=
  (stashPiece_amended
    (PocketManager.stashPiece
      { pieces := [basePiece], pockets := initialPockets, boardX := 0, boardY := 0 }
      0 0).2 0 0
    { id := 0,
      pieces := [{ pieceId := 0, angle := 0, slotIndex := some 0,
                   lastWorldPos := some { x := 0, y := 0, angle := 0 } }],
      template := none }
    { basePiece with interactive := false, visible := false, scale := 1, alpha := 1 }
    (by decide) (by decide)).1 (Or.inr (by decide))

/-! ## PocketRestrictedSnapSystem (src/unnamed/part_009) -/

namespace PocketRestrictedSnapSystem

/-- `PocketRestrictedSnapSystem.trySnap`.  `getPocketIdx` is the focus
mode's open pocket (`none` when closed).  The source takes the `Piece`
instance and derives `pieceId = board.getPieces().indexOf(piece)`; here
the caller passes `pieceId` and "not on the board" is
`gs.pieces[pieceId]? = none`.  The audio call and the `pocket-updated` /
`request-save` events, and the focus-mode callbacks (`onSolvedInPocket`,
`onAfterPlace`), do not touch the state modelled here. -/
def trySnap (gs : GameState) (openPocketIdx : Option Nat) (pieceId : Nat) :
    Bool × GameState :=
  match openPocketIdx with
  | none => (false, gs)
  | some pocketIdx =>
    match gs.pieces[pieceId]? with
    | none => (false, gs)
    | some piece =>
      if (piece.x - piece.correctX) ^ 2 + (piece.y - piece.correctY) ^ 2 ≥ 30 ^ 2 then
        (false, gs)
      else if piece.angle ≠ 0 then (false, gs)
      else
        match gs.pockets[pocketIdx]? with
        | none => (false, gs)
        | some pocket =>
          match pocket.template with
          | none => (false, gs)
          | some t =>
            if ¬ pocket.pieces.any (fun p => p.pieceId == pieceId) then (false, gs)
            else if ¬ (t.pieceLayout.lookup pieceId).isSome then (false, gs)
            else (true, PocketManager.placePieceFromPocket gs pocketIdx pieceId)

end PocketRestrictedSnapSystem

/-- Explicit result of `placePieceFromPocket` when every guard passes. -/
theorem placePieceFromPocket_spec (gs : GameState) (pocketIdx pieceId : Nat)
    (pocket : PocketState) (t : PocketTemplate) (cell : GridCell)
    (stateIdx : Nat) (piece : Piece)
    (hp : gs.pockets[pocketIdx]? = some pocket)
    (htl : pocket.template = some t)
    (hcell : t.pieceLayout.lookup pieceId = some cell)
    (hfind : pocket.pieces.findIdx? (fun p => p.pieceId == pieceId) = some stateIdx)
    (hpc : gs.pieces[pieceId]? = some piece) :
    PocketManager.placePieceFromPocket gs pocketIdx pieceId =
      { gs with
          pieces := gs.pieces.set pieceId
            { setPieceSolved piece with
                visible := true
                angle := 0
                x := gs.boardX + cell.gridCol * piece.logicalWidth + piece.logicalWidth / 2
                y := gs.boardY + cell.gridRow * piece.logicalHeight + piece.logicalHeight / 2 }
          pockets := gs.pockets.set pocketIdx
            { pocket with
                pieces := pocket.pieces.eraseIdx stateIdx
                template := some { t with solvedIds := jsSetInsert t.solvedIds pieceId } } } := by
  unfold PocketManager.placePieceFromPocket
  rw [hp]
  simp only []
  rw [htl]
  simp only []
  rw [hcell]
  simp only []
  rw [hfind]
  simp only []
  rw [hpc]
  simp only [getGridToWorld]

theorem mem_jsSetInsert {x id : Nat} {l : List Nat} :
    x ∈ jsSetInsert l id ↔ x ∈ l ∨ x = id := by
  unfold jsSetInsert
  rw [mem_jsDedup]
  simp

/-! ## Claim C6 — the restricted placement engine -/

/-- C6: the restricted `trySnap` succeeds only within the snap distance, at
angle exactly 0, for a piece listed in the open pocket whose id is a key of
that pocket's template; with no template it always fails; and success
solves the piece at its template grid coordinate, removes exactly its one
pocket entry, and grows the template's solved-id set by exactly that id. -/
theorem pocketRestrictedTrySnap_correct (gs : GameState) (openPocketIdx : Option Nat)
    (pieceId : Nat) :
    ((PocketRestrictedSnapSystem.trySnap gs openPocketIdx pieceId).1 = true →
      ∃ pocketIdx pocket t piece cell stateIdx,
        openPocketIdx = some pocketIdx ∧
        gs.pockets[pocketIdx]? = some pocket ∧
        pocket.template = some t ∧
        gs.pieces[pieceId]? = some piece ∧
        (piece.x - piece.correctX) ^ 2 + (piece.y - piece.correctY) ^ 2 < 30 ^ 2 ∧
        piece.angle = 0 ∧
        pieceId ∈ pocket.pieces.map (·.pieceId) ∧
        t.pieceLayout.lookup pieceId = some cell ∧
        pocket.pieces.findIdx? (fun p => p.pieceId == pieceId) = some stateIdx ∧
        (pocket.pieces.eraseIdx stateIdx).length + 1 = pocket.pieces.length ∧
        (PocketRestrictedSnapSystem.trySnap gs openPocketIdx pieceId).2.pockets[pocketIdx]? =
          some { pocket with
                   pieces := pocket.pieces.eraseIdx stateIdx
                   template := some { t with
                                        solvedIds := jsSetInsert t.solvedIds pieceId } } ∧
        (∀ x, x ∈ jsSetInsert t.solvedIds pieceId ↔ x ∈ t.solvedIds ∨ x = pieceId) ∧
        ∃ piece',
          (PocketRestrictedSnapSystem.trySnap gs openPocketIdx pieceId).2.pieces[pieceId]? =
            some piece' ∧
          piece'.isSolved = true ∧ piece'.visible = true ∧
          piece'.interactive = false ∧ piece'.angle = 0 ∧
          piece'.x = gs.boardX + cell.gridCol * piece.logicalWidth +
            piece.logicalWidth / 2 ∧
          piece'.y = gs.boardY + cell.gridRow * piece.logicalHeight +
            piece.logicalHeight / 2) ∧
    (∀ pocketIdx pocket,
      openPocketIdx = some pocketIdx →
      gs.pockets[pocketIdx]? = some pocket →
      pocket.template = none →
      (PocketRestrictedSnapSystem.trySnap gs openPocketIdx pieceId).1 = false) := by
  cases ho : openPocketIdx with
  | none =>
    constructor
    · intro h
      have key : PocketRestrictedSnapSystem.trySnap gs none pieceId = (false, gs) := rfl
      rw [key] at h
      exact Bool.noConfusion h
    · intro pocketIdx pocket hopen
      cases hopen
  | some pocketIdx =>
    cases hq : gs.pieces[pieceId]? with
    | none =>
      have key : PocketRestrictedSnapSystem.trySnap gs (some pocketIdx) pieceId =
          (false, gs) := by
        unfold PocketRestrictedSnapSystem.trySnap
        rw [hq]
      rw [key]
      exact ⟨fun h => Bool.noConfusion h, fun _ _ _ _ _ => rfl⟩
    | some piece =>
      have key0 : PocketRestrictedSnapSystem.trySnap gs (some pocketIdx) pieceId =
          (if (piece.x - piece.correctX) ^ 2 + (piece.y - piece.correctY) ^ 2 ≥ 30 ^ 2 then
            (false, gs)
          else if piece.angle ≠ 0 then (false, gs)
          else
            match gs.pockets[pocketIdx]? with
            | none => (false, gs)
            | some pocket =>
              match pocket.template with
              | none => (false, gs)
              | some t =>
                if ¬ pocket.pieces.any (fun p => p.pieceId == pieceId) then (false, gs)
                else if ¬ (t.pieceLayout.lookup pieceId).isSome then (false, gs)
                else (true, PocketManager.placePieceFromPocket gs pocketIdx pieceId)) := by
        unfold PocketRestrictedSnapSystem.trySnap
        rw [hq]
      by_cases hdist : (piece.x - piece.correctX) ^ 2 + (piece.y - piece.correctY) ^ 2 ≥ 30 ^ 2
      · rw [if_pos hdist] at key0
        rw [key0]
        exact ⟨fun h => Bool.noConfusion h, fun _ _ _ _ _ => rfl⟩
      rw [if_neg hdist] at key0
      by_cases hang : piece.angle ≠ 0
      · rw [if_pos hang] at key0
        rw [key0]
        exact ⟨fun h => Bool.noConfusion h, fun _ _ _ _ _ => rfl⟩
      rw [if_neg hang] at key0
      cases hp : gs.pockets[pocketIdx]? with
      | none =>
        rw [hp] at key0
        rw [key0]
        exact ⟨fun h => Bool.noConfusion h, fun _ _ _ _ _ => rfl⟩
      | some pocket =>
        rw [hp] at key0
        simp only [] at key0
        cases htl : pocket.template with
        | none =>
          rw [htl] at key0
          rw [key0]
          exact ⟨fun h => Bool.noConfusion h, fun _ _ _ _ _ => rfl⟩
        | some t =>
          rw [htl] at key0
          simp only [] at key0
          constructor
          · intro hb
            by_cases hin : pocket.pieces.any (fun p => p.pieceId == pieceId) = true
            case neg =>
              rw [if_pos (by simpa using hin)] at key0
              rw [key0] at hb
              cases hb
            rw [if_neg (by simpa using hin)] at key0
            by_cases hlk : (t.pieceLayout.lookup pieceId).isSome = true
            case neg =>
              rw [if_pos (by simpa using hlk)] at key0
              rw [key0] at hb
              cases hb
            rw [if_neg (by simpa using hlk)] at key0
            obtain ⟨cell, hcell⟩ := Option.isSome_iff_exists.mp hlk
            obtain ⟨p0, hp0m, hp0e⟩ := List.any_eq_true.mp hin
            have hfind := List.findIdx?_eq_some_of_exists
              (p := fun q => q.pieceId == pieceId) ⟨p0, hp0m, hp0e⟩
            obtain ⟨hltIdx, -, -⟩ := List.findIdx?_eq_some_iff_getElem.mp hfind
            obtain ⟨hpcl, -⟩ := List.getElem?_eq_some.mp hq
            obtain ⟨hpkl, -⟩ := List.getElem?_eq_some.mp hp
            have hplace := placePieceFromPocket_spec gs pocketIdx pieceId pocket t cell
              _ piece hp htl hcell hfind hq
            rw [key0]
            simp only [hplace]
            refine ⟨pocketIdx, pocket, t, piece, cell, _, rfl, hp, htl, rfl,
              not_le.mp hdist, not_not.mp hang, ?_, hcell, hfind, ?_, ?_, ?_, ?_⟩
            · exact List.mem_map.mpr ⟨p0, hp0m, by simpa using hp0e⟩
            · rw [List.length_eraseIdx, if_pos hltIdx]
              omega
            · exact List.getElem?_set_self hpkl
            · exact fun x => mem_jsSetInsert
            · exact ⟨_, List.getElem?_set_self hpcl, rfl, rfl, rfl, rfl, rfl, rfl⟩
          · intro _ pocket' hopen hp' htl'
            cases hopen
            rw [hp'] at hp
            cases hp
            rw [htl'] at htl
            cases htl

/-- Witness for C6: with no template in the open pocket, no piece can
snap. -/
theorem pocketRestrictedTrySnap_correct_witness :
    (PocketRestrictedSnapSystem.trySnap
      { pieces := [basePiece], pockets := initialPockets, boardX := 0, boardY := 0 }
      (some 0) 0).1 = false :=
  (pocketRestrictedTrySnap_correct
    { pieces := [basePiece], pockets := initialPockets, boardX := 0, boardY := 0 }
    (some 0) 0).2 0 { id := 0, pieces := [], template := none } rfl rfl rfl

/-! ## Claim C8 — autoInsertIfSolved -/

theorem autoInsertOne_length (gs : GameState) (t : PocketTemplate)
    (acc : List Piece) (st : PocketPieceState) :
    (PocketManager.autoInsertOne gs t acc st).length = acc.length := by
  unfold PocketManager.autoInsertOne
  cases h : acc[st.pieceId]? with
  | none => rfl
  | some piece =>
    simp only []
    cases t.pieceLayout.lookup st.pieceId <;> simp [List.length_set]

theorem autoInsertOne_get_ne (gs : GameState) (t : PocketTemplate)
    (acc : List Piece) (st : PocketPieceState) {id : Nat} (hne : st.pieceId ≠ id) :
    (PocketManager.autoInsertOne gs t acc st)[id]? = acc[id]? := by
  unfold PocketManager.autoInsertOne
  cases h : acc[st.pieceId]? with
  | none => rfl
  | some piece =>
    simp only []
    cases t.pieceLayout.lookup st.pieceId <;>
      simp [List.getElem?_set_ne hne]

theorem autoInsert_foldl_untouched (gs : GameState) (t : PocketTemplate) :
    ∀ (states : List PocketPieceState) (acc : List Piece) {id : Nat},
      id ∉ states.map (·.pieceId) →
      (states.foldl (PocketManager.autoInsertOne gs t) acc)[id]? = acc[id]?
  | [], _, _, _ => rfl
  | s :: rest, acc, id, hid => by
    rw [List.foldl_cons]
    have hne : s.pieceId ≠ id := by
      intro he
      exact hid (by simp [← he])
    rw [autoInsert_foldl_untouched gs t rest _ (fun hmem => hid (by simp [hmem]))]
    exact autoInsertOne_get_ne gs t acc s hne

theorem autoInsertOne_get_self (gs : GameState) (t : PocketTemplate)
    (acc acc' : List Piece) (st : PocketPieceState) (piece : Piece)
    (h1 : acc[st.pieceId]? = some piece) (h2 : acc'[st.pieceId]? = some piece) :
    (PocketManager.autoInsertOne gs t acc st)[st.pieceId]? =
      (PocketManager.autoInsertOne gs t acc' st)[st.pieceId]? := by
  obtain ⟨hlt1, -⟩ := List.getElem?_eq_some.mp h1
  obtain ⟨hlt2, -⟩ := List.getElem?_eq_some.mp h2
  unfold PocketManager.autoInsertOne
  rw [h1, h2]
  simp only []
  cases t.pieceLayout.lookup st.pieceId with
  | none =>
    simp only []
    rw [List.getElem?_set_self hlt1, List.getElem?_set_self hlt2]
  | some cell =>
    simp only []
    rw [List.getElem?_set_self hlt1, List.getElem?_set_self hlt2]

theorem autoInsert_foldl_get (gs : GameState) (t : PocketTemplate) :
    ∀ (states : List PocketPieceState) (acc : List Piece),
      (states.map (·.pieceId)).Nodup →
      ∀ st ∈ states, ∀ piece, acc[st.pieceId]? = some piece →
        (states.foldl (PocketManager.autoInsertOne gs t) acc)[st.pieceId]? =
          (PocketManager.autoInsertOne gs t acc st)[st.pieceId]?
  | [], _, _, st, hst, _, _ => absurd hst (List.not_mem_nil st)
  | s :: rest, acc, hnd, st, hst, piece, hacc => by
    rw [List.foldl_cons]
    rw [List.map_cons, List.nodup_cons] at hnd
    rcases List.mem_cons.mp hst with heq | hmem
    · subst heq
      exact autoInsert_foldl_untouched gs t rest _ hnd.1
    · have hne : s.pieceId ≠ st.pieceId := by
        intro he
        exact hnd.1 (he ▸ List.mem_map.mpr ⟨st, hmem, rfl⟩)
      have hacc' : (PocketManager.autoInsertOne gs t acc s)[st.pieceId]? = some piece := by
        rw [autoInsertOne_get_ne gs t acc s hne]
        exact hacc
      rw [autoInsert_foldl_get gs t rest _ hnd.2 st hmem piece hacc']
      exact autoInsertOne_get_self gs t _ acc st piece hacc' hacc

/-- C8: when the pocket's template exists and the piece list holds exactly
the template's still-unsolved ids, `autoInsertIfSolved` empties the piece
list, clears the template, and leaves every one of those pieces solved,
visible, at angle 0, positioned at its template grid coordinate; with no
template, or when the piece count differs from the count of still-unsolved
template ids, it changes nothing. -/
theorem autoInsertIfSolved_correct (gs : GameState) (pocketIdx : Nat)
    (pocket : PocketState)
    (hp : gs.pockets[pocketIdx]? = some pocket) :
    (pocket.template = none → PocketManager.autoInsertIfSolved gs pocketIdx = gs) ∧
    (∀ t, pocket.template = some t →
      (pocket.pieces.length ≠
          ((t.pieceLayout.map (·.1)).filter
            (fun id => ¬ t.solvedIds.contains id)).length →
        PocketManager.autoInsertIfSolved gs pocketIdx = gs) ∧
      ((t.pieceLayout.map (·.1)).Nodup →
        (pocket.pieces.map (·.pieceId)).Perm
          ((t.pieceLayout.map (·.1)).filter (fun id => ¬ t.solvedIds.contains id)) →
        (∀ st ∈ pocket.pieces, st.pieceId < gs.pieces.length) →
        (PocketManager.autoInsertIfSolved gs pocketIdx).pockets[pocketIdx]? =
          some { pocket with pieces := [], template := none } ∧
        ∀ st ∈ pocket.pieces, ∃ cell piece piece',
          t.pieceLayout.lookup st.pieceId = some cell ∧
          gs.pieces[st.pieceId]? = some piece ∧
          (PocketManager.autoInsertIfSolved gs pocketIdx).pieces[st.pieceId]? =
            some piece' ∧
          piece'.isSolved = true ∧ piece'.visible = true ∧
          piece'.interactive = false ∧ piece'.angle = 0 ∧
          piece'.x = gs.boardX + cell.gridCol * piece.logicalWidth +
            piece.logicalWidth / 2 ∧
          piece'.y = gs.boardY + cell.gridRow * piece.logicalHeight +
            piece.logicalHeight / 2)) := by
  obtain ⟨pid, ppieces, ptemp⟩ := pocket
  constructor
  · intro htl
    simp only [] at htl
    subst htl
    unfold PocketManager.autoInsertIfSolved
    rw [hp]
  · intro t htl
    simp only [] at htl
    subst htl
    have key : PocketManager.autoInsertIfSolved gs pocketIdx =
        (if ppieces.length ≠
            ((t.pieceLayout.map (·.1)).filter
              (fun id => ¬ t.solvedIds.contains id)).length then gs
         else
           { gs with
               pieces := ppieces.foldl (PocketManager.autoInsertOne gs t) gs.pieces
               pockets := gs.pockets.set pocketIdx
                 { id := pid, pieces := [], template := none } }) := by
      unfold PocketManager.autoInsertIfSolved
      rw [hp]
    constructor
    · intro hne
      rw [key, if_pos hne]
    · intro hkeys hperm hbd
      have hlen : ppieces.length =
          ((t.pieceLayout.map (·.1)).filter
            (fun id => ¬ t.solvedIds.contains id)).length := by
        have := hperm.length_eq
        simpa using this
      rw [key, if_neg (by simpa using hlen)]
      obtain ⟨hplt, -⟩ := List.getElem?_eq_some.mp hp
      constructor
      · simp only []
        exact List.getElem?_set_self hplt
      · intro st hst
        have hnd : (ppieces.map (·.pieceId)).Nodup :=
          hperm.nodup_iff.mpr (hkeys.filter _)
        have hltb : st.pieceId < gs.pieces.length := hbd st hst
        have hacc : gs.pieces[st.pieceId]? = some gs.pieces[st.pieceId] :=
          List.getElem?_eq_getElem hltb
        have hmemT : st.pieceId ∈ t.pieceLayout.map (·.1) := by
          have h1 : st.pieceId ∈ ppieces.map (·.pieceId) :=
            List.mem_map.mpr ⟨st, hst, rfl⟩
          have h2 := hperm.mem_iff.mp h1
          exact (List.mem_filter.mp h2).1
        obtain ⟨pair, hpair, hpaireq⟩ := List.mem_map.mp hmemT
        have hsome : (t.pieceLayout.lookup st.pieceId).isSome :=
          List.lookup_isSome_iff.mpr ⟨pair, hpair, by simp [hpaireq]⟩
        obtain ⟨cell, hcell⟩ := Option.isSome_iff_exists.mp hsome
        have hfold := autoInsert_foldl_get gs t ppieces gs.pieces hnd st hst
          gs.pieces[st.pieceId] hacc
        refine ⟨cell, gs.pieces[st.pieceId], ?_⟩
        simp only []
        rw [hfold]
        unfold PocketManager.autoInsertOne
        rw [hacc]
        simp only []
        rw [hcell]
        simp only [getGridToWorld]
        exact ⟨_, trivial, trivial, List.getElem?_set_self hltb, rfl, rfl, rfl, rfl, rfl, rfl⟩

/-- Witness for C8: a one-piece pocket matching its one-unsolved-id
template is flushed. -/
theorem autoInsertIfSolved_correct_witness :
    (PocketManager.autoInsertIfSolved
      { pieces := [basePiece],
        pockets := [{ id := 0,
                      pieces := [{ pieceId := 0, angle := 0, slotIndex := some 0,
                                   lastWorldPos := none }],
                      template := some { pieceLayout := [(0, { gridRow := 0, gridCol := 0 })],
                                         capturedAt := 0,
                                         crop := { x := 0, y := 0, w := 1, h := 1 },
                                         solvedIds := [] } }],
        boardX := 0, boardY := 0 } 0).pockets[0]? =
      some { id := 0, pieces := [], template := none } :=
  (((autoInsertIfSolved_correct
    { pieces := [basePiece],
      pockets := [{ id := 0,
                    pieces := [{ pieceId := 0, angle := 0, slotIndex := some 0,
                                 lastWorldPos := none }],
                    template := some { pieceLayout := [(0, { gridRow := 0, gridCol := 0 })],
                                       capturedAt := 0,
                                       crop := { x := 0, y := 0, w := 1, h := 1 },
                                       solvedIds := [] } }],
      boardX := 0, boardY := 0 } 0
    { id := 0,
      pieces := [{ pieceId := 0, angle := 0, slotIndex := some 0,
                   lastWorldPos := none }],
      template := some { pieceLayout := [(0, { gridRow := 0, gridCol := 0 })],
                         capturedAt := 0,
                         crop := { x := 0, y := 0, w := 1, h := 1 },
                         solvedIds := [] } } rfl).2
    { pieceLayout := [(0, { gridRow := 0, gridCol := 0 })],
      capturedAt := 0,
      crop := { x := 0, y := 0, w := 1, h := 1 },
      solvedIds := [] } rfl).2 (by decide) (by decide) (by decide)).1

/-! ## PocketFocusMode (src/unnamed/part_009)

The focus overlay's piece loop (`applyVisibilityAndInteraction`) walks
`board.getPieces()` by index; each iteration reads and writes only the
map/set entries of its own index (`prevPieceState.has(id)` /
`movedToOverlay.has(id)`), and piece indices are pairwise distinct, so the
loop is modelled as an indexed map on the pieces plus independent folds
for the baseline map and the overlay set.  The write-only caches
`hiddenPieces` / `pocketPieces` and the ghost `revealGroup`
(`renderReveal16` / `destroyReveal16`) are not modelled: nothing reads
them back. -/

/-- One entry of the focus overlay's baseline snapshot (`prevPieceState`). -/
structure PrevPieceState where
  visible : Bool
  interactive : Bool
  depth : Int
  scrollFactorX : Rat
  scrollFactorY : Rat
  alpha : Rat
  tintTopLeft : Nat
  deriving Repr, DecidableEq

/-- The mutable fields of `PocketFocusMode`. -/
structure FocusState where
  openPocketIdx : Option Nat
  baselineCaptured : Bool
  movedToOverlay : List Nat
  releasedToWorld : List Nat
  prevPieceState : List (Nat × PrevPieceState)
  deriving Repr, DecidableEq

/-- Indexed map over the board pieces (the `pieces.forEach((piece, id))`
loops). -/
def mapWithIndex (f : Nat → Piece → Piece) : Nat → List Piece → List Piece
  | _, [] => []
  | i, p :: rest => f i p :: mapWithIndex f (i + 1) rest

namespace PocketFocusMode

/-- The state `PocketFocusMode` starts in, and that `close()` resets to. -/
def initial : FocusState :=
  { openPocketIdx := none
    baselineCaptured := false
    movedToOverlay := []
    releasedToWorld := []
    prevPieceState := [] }

def vividTint : Nat := 0xffffff
def solvedTint : Nat := 0xddffdd

/-- The baseline snapshot of one piece. -/
def captureOf (piece : Piece) : PrevPieceState :=
  { visible := piece.visible
    interactive := piece.interactive
    depth := piece.depth
    scrollFactorX := piece.scrollX
    scrollFactorY := piece.scrollY
    alpha := piece.alpha
    tintTopLeft := piece.tint }

/-- The baseline captures accumulated over the piece loop: an entry is
added for index `i` when capture is on and the map has no entry for `i`
yet (`Map.set` appends in insertion order). -/
def buildPrev (doCapture : Bool) :
    Nat → List Piece → List (Nat × PrevPieceState) → List (Nat × PrevPieceState)
  | _, [], acc => acc
  | i, piece :: rest, acc =>
    buildPrev doCapture (i + 1) rest
      (if doCapture ∧ (acc.lookup i).isNone then acc ++ [(i, captureOf piece)] else acc)

/-- The `movedToOverlay` set after the piece loop: pocket pieces are added
(a JS `Set.add` appends when absent), pieces no longer in the pocket but
still in the set are deleted. -/
def buildMoved (pocketIds : List Nat) : Nat → List Piece → List Nat → List Nat
  | _, [], moved => moved
  | i, _ :: rest, moved =>
    buildMoved pocketIds (i + 1) rest
      (if pocketIds.contains i then
        (if moved.contains i then moved else moved ++ [i])
      else moved.erase i)

/-- The per-piece effect of `applyVisibilityAndInteraction`: pocket pieces
are shown, un-solved, vivified and rebound at depth 950; pieces leaving
the overlay get their layer (depth) restored; released pieces and unsolved
non-pocket pieces are hidden; solved non-pocket pieces are shown only
inside the template region. -/
def applyPieceVis (pocketIds templateIds : List Nat) (hasTemplate : Bool)
    (moved0 released : List Nat) (id : Nat) (piece : Piece) : Piece :=
  if pocketIds.contains id then
    { piece with
        visible := true, isSolved := false, tint := vividTint, alpha := 1,
        scrollX := 1, scrollY := 1, interactive := true, depth := 950 }
  else
    let piece₁ := if moved0.contains id then restorePieceLayer piece else piece
    if released.contains id then { piece₁ with visible := false, interactive := false }
    else if piece₁.isSolved then
      { piece₁ with
          visible := hasTemplate && templateIds.contains id,
          interactive := false, depth := 0, tint := solvedTint, alpha := 1 }
    else { piece₁ with visible := false, interactive := false }

/-- `PocketFocusMode.applyVisibilityAndInteraction`.  An invalid open
pocket index is modelled as a no-op (the source only opens indices 0–2). -/
def applyVisibilityAndInteraction (captureBaseline : Bool) (fs : FocusState)
    (gs : GameState) : FocusState × GameState :=
  match fs.openPocketIdx with
  | none => (fs, gs)
  | some pocketIdx =>
    match gs.pockets[pocketIdx]? with
    | none => (fs, gs)
    | some pocket =>
      let pocketIds := pocket.pieces.map (·.pieceId)
      let templateIds := (pocket.template.map (fun t => t.pieceLayout.map (·.1))).getD []
      let hasTemplate := pocket.template.isSome
      let doCapture := captureBaseline && !fs.baselineCaptured
      ({ fs with
           prevPieceState := buildPrev doCapture 0 gs.pieces fs.prevPieceState
           movedToOverlay := buildMoved pocketIds 0 gs.pieces fs.movedToOverlay
           baselineCaptured := fs.baselineCaptured || captureBaseline },
       { gs with
           pieces := mapWithIndex
             (applyPieceVis pocketIds templateIds hasTemplate
               fs.movedToOverlay fs.releasedToWorld)
             0 gs.pieces })

/-- The restore step of `close()` for one piece: pieces moved to the
overlay get their layer (and its depth) restored first, then the baseline
visibility/depth/scroll/alpha/tint, and finally the interaction —
re-enabling board interaction also forces alpha back to 1
(`PuzzleBoard.enablePieceInteraction` ends with `setAlpha(1)`). -/
def closeRestorePiece (fs : FocusState) (id : Nat) (piece : Piece) : Piece :=
  match fs.prevPieceState.lookup id with
  | none => piece
  | some prev =>
    let piece₁ := if fs.movedToOverlay.contains id then restorePieceLayer piece else piece
    let piece₂ :=
      { piece₁ with
          visible := prev.visible
          depth := prev.depth
          scrollX := prev.scrollFactorX
          scrollY := prev.scrollFactorY
          alpha := prev.alpha
          tint := prev.tintTopLeft }
    if prev.interactive then enablePieceInteraction piece₂
    else { piece₂ with interactive := false }

/-- The released-pieces pass of `close()`: restore layer, show, reset
alpha and tint, re-enable board interaction. -/
def releaseShow (pieces : List Piece) (id : Nat) : List Piece :=
  match pieces[id]? with
  | none => pieces
  | some piece =>
    pieces.set id (enablePieceInteraction
      { restorePieceLayer piece with visible := true, alpha := 1, tint := vividTint })

/-- `PocketFocusMode.close`. -/
def close (fs : FocusState) (gs : GameState) : FocusState × GameState :=
  match fs.openPocketIdx with
  | none => (fs, gs)
  | some _ =>
    let pieces₁ := mapWithIndex (closeRestorePiece fs) 0 gs.pieces
    let pieces₂ := fs.releasedToWorld.foldl releaseShow pieces₁
    (initial, { gs with pieces := pieces₂ })

/-- `PocketFocusMode.open`: close whatever is open, record the new open
pocket, reset the baseline flag, and apply visibility with baseline
capture (`renderReveal16` only builds ghost sprites). -/
def openFocus (fs : FocusState) (gs : GameState) (pocketIdx : Nat) :
    FocusState × GameState :=
  let closed := close fs gs
  applyVisibilityAndInteraction true
    { closed.1 with openPocketIdx := some pocketIdx, baselineCaptured := false }
    closed.2

/-- `PocketFocusMode.refresh`: re-derive visibility without re-capturing
the baseline. -/
def refresh (fs : FocusState) (gs : GameState) : FocusState × GameState :=
  match fs.openPocketIdx with
  | none => (fs, gs)
  | some _ => applyVisibilityAndInteraction false fs gs

end PocketFocusMode

/-! ## Focus overlay lemmas -/

theorem mapWithIndex_getElem? (f : Nat → Piece → Piece) :
    ∀ (l : List Piece) (i j : Nat),
      (mapWithIndex f i l)[j]? = (l[j]?).map (f (i + j))
  | [], _, _ => by simp [mapWithIndex]
  | p :: rest, i, 0 => by simp [mapWithIndex]
  | p :: rest, i, j + 1 => by
    have h : i + 1 + j = i + (j + 1) := by omega
    rw [mapWithIndex, List.getElem?_cons_succ, List.getElem?_cons_succ,
      mapWithIndex_getElem? f rest (i + 1) j, h]

namespace PocketFocusMode

theorem buildPrev_lookup_lt (d : Bool) :
    ∀ (l : List Piece) (i : Nat) (acc : List (Nat × PrevPieceState)) {j : Nat},
      j < i → (buildPrev d i l acc).lookup j = acc.lookup j
  | [], _, _, _, _ => rfl
  | p :: rest, i, acc, j, hj => by
    rw [buildPrev]
    rw [buildPrev_lookup_lt d rest (i + 1) _ (Nat.lt_succ_of_lt hj)]
    by_cases hc : d = true ∧ (acc.lookup i).isNone = true
    · rw [if_pos hc, List.lookup_append]
      have hne : (j == i) = false := by
        simp only [beq_eq_false_iff_ne, ne_eq]
        omega
      have hsing : List.lookup j [(i, captureOf p)] = none := by
        simp [List.lookup_cons, hne]
      rw [hsing, Option.or_none]
    · rw [if_neg hc]

theorem buildPrev_lookup :
    ∀ (l : List Piece) (i : Nat) (acc : List (Nat × PrevPieceState)),
      (∀ k, i ≤ k → acc.lookup k = none) →
      ∀ {j : Nat} {piece : Piece}, l[j]? = some piece →
      (buildPrev true i l acc).lookup (i + j) = some (captureOf piece)
  | [], _, _, _, j, _, hget => by cases hget
  | p :: rest, i, acc, hacc, j, piece, hget => by
    rw [buildPrev]
    have hnone : (acc.lookup i).isNone = true := by
      rw [hacc i (le_refl i)]
      rfl
    rw [if_pos ⟨rfl, hnone⟩]
    cases j with
    | zero =>
      simp only [List.getElem?_cons_zero, Option.some.injEq] at hget
      subst hget
      rw [Nat.add_zero]
      rw [buildPrev_lookup_lt true rest (i + 1) _ (Nat.lt_succ_self i)]
      rw [List.lookup_append, hacc i (le_refl i)]
      simp [List.lookup_cons]
    | succ j =>
      simp only [List.getElem?_cons_succ] at hget
      have hacc' : ∀ k, i + 1 ≤ k → (acc ++ [(i, captureOf p)]).lookup k = none := by
        intro k hk
        rw [List.lookup_append, hacc k (Nat.le_of_succ_le hk)]
        have hne : (k == i) = false := by
          simp only [beq_eq_false_iff_ne, ne_eq]
          omega
        simp [List.lookup_cons, hne]
      have := buildPrev_lookup rest (i + 1) _ hacc' hget
      rw [show i + (j + 1) = (i + 1) + j by omega]
      exact this

/-- `closeRestorePiece` restores exactly the baselined fields; alpha is
forced to 1 for pieces whose baseline interaction was enabled. -/
theorem closeRestorePiece_fields (fs : FocusState) (id : Nat) (q : Piece)
    (prev : PrevPieceState) (hlk : fs.prevPieceState.lookup id = some prev) :
    (closeRestorePiece fs id q).visible = prev.visible ∧
    (closeRestorePiece fs id q).depth = prev.depth ∧
    (closeRestorePiece fs id q).scrollX = prev.scrollFactorX ∧
    (closeRestorePiece fs id q).scrollY = prev.scrollFactorY ∧
    (closeRestorePiece fs id q).tint = prev.tintTopLeft ∧
    (closeRestorePiece fs id q).interactive = prev.interactive ∧
    (closeRestorePiece fs id q).alpha = (if prev.interactive then 1 else prev.alpha) ∧
    (closeRestorePiece fs id q).isSolved = q.isSolved := by
  unfold closeRestorePiece
  rw [hlk]
  simp only []
  by_cases hi : prev.interactive = true
  · rw [if_pos hi, if_pos hi]
    refine ⟨rfl, rfl, rfl, rfl, rfl, hi.symm, rfl, ?_⟩
    simp only [enablePieceInteraction, restorePieceLayer]
    split <;> rfl
  · rw [if_neg hi, if_neg hi]
    refine ⟨rfl, rfl, rfl, rfl, rfl,
      (by simp only [Bool.not_eq_true] at hi; exact hi.symm), rfl, ?_⟩
    simp only [restorePieceLayer]
    split <;> rfl

/-- `closeRestorePiece` never touches the solved flag (the baseline does
not record it). -/
theorem closeRestorePiece_isSolved (fs : FocusState) (id : Nat) (q : Piece) :
    (closeRestorePiece fs id q).isSolved = q.isSolved := by
  unfold closeRestorePiece
  cases hlk : fs.prevPieceState.lookup id with
  | none => rfl
  | some prev =>
    simp only []
    by_cases hi : prev.interactive = true
    · rw [if_pos hi]
      simp only [enablePieceInteraction, restorePieceLayer]
      split <;> rfl
    · rw [if_neg hi]
      simp only [restorePieceLayer]
      split <;> rfl

end PocketFocusMode

namespace PocketFocusMode

/-- The board pieces after one `applyVisibilityAndInteraction` pass, per
index. -/
theorem applyVis_pieces_getElem? (captureBaseline : Bool) (fs : FocusState)
    (gs : GameState) (pocketIdx : Nat) (pocket : PocketState)
    (hopen : fs.openPocketIdx = some pocketIdx)
    (hp : gs.pockets[pocketIdx]? = some pocket) (id : Nat) :
    (applyVisibilityAndInteraction captureBaseline fs gs).2.pieces[id]? =
      (gs.pieces[id]?).map
        (applyPieceVis (pocket.pieces.map (·.pieceId))
          ((pocket.template.map (fun t => t.pieceLayout.map (·.1))).getD [])
          pocket.template.isSome fs.movedToOverlay fs.releasedToWorld id) := by
  unfold applyVisibilityAndInteraction
  rw [hopen]
  simp only []
  rw [hp]
  simp only []
  rw [mapWithIndex_getElem?, Nat.zero_add]

/-- The focus-mode state after one `applyVisibilityAndInteraction` pass. -/
theorem applyVis_fs (captureBaseline : Bool) (fs : FocusState) (gs : GameState)
    (pocketIdx : Nat) (pocket : PocketState)
    (hopen : fs.openPocketIdx = some pocketIdx)
    (hp : gs.pockets[pocketIdx]? = some pocket) :
    (applyVisibilityAndInteraction captureBaseline fs gs).1 =
      { fs with
          prevPieceState :=
            buildPrev (captureBaseline && !fs.baselineCaptured) 0 gs.pieces
              fs.prevPieceState
          movedToOverlay :=
            buildMoved (pocket.pieces.map (·.pieceId)) 0 gs.pieces fs.movedToOverlay
          baselineCaptured := fs.baselineCaptured || captureBaseline } := by
  unfold applyVisibilityAndInteraction
  rw [hopen]
  simp only []
  rw [hp]

/-- The board pieces after `close`, per index, when nothing was released. -/
theorem close_pieces_getElem? (fs : FocusState) (gs : GameState) (pocketIdx : Nat)
    (hopen : fs.openPocketIdx = some pocketIdx) (hrel : fs.releasedToWorld = [])
    (id : Nat) :
    (close fs gs).2.pieces[id]? =
      (gs.pieces[id]?).map (closeRestorePiece fs id) := by
  unfold close
  rw [hopen]
  simp only [hrel, List.foldl_nil]
  rw [mapWithIndex_getElem?, Nat.zero_add]

end PocketFocusMode

/-! ## Claim C1 — the open/close round trip -/

/-- Core open/close round-trip computation: what `close()` leaves on every
piece after a fresh `open(idx)` with no intervening mutation. -/
theorem focus_open_close_core (gs : GameState) (pocketIdx : Nat)
    (pocket : PocketState) (hp : gs.pockets[pocketIdx]? = some pocket)
    (id : Nat) (piece : Piece) (hq : gs.pieces[id]? = some piece) :
    ∃ piece',
      (PocketFocusMode.close
        (PocketFocusMode.openFocus PocketFocusMode.initial gs pocketIdx).1
        (PocketFocusMode.openFocus PocketFocusMode.initial gs pocketIdx).2).2.pieces[id]? =
        some piece' ∧
      piece'.visible = piece.visible ∧
      piece'.depth = piece.depth ∧
      piece'.scrollX = piece.scrollX ∧
      piece'.scrollY = piece.scrollY ∧
      piece'.tint = piece.tint ∧
      piece'.interactive = piece.interactive ∧
      piece'.alpha = (if piece.interactive then 1 else piece.alpha) := by
  have h1 : PocketFocusMode.openFocus PocketFocusMode.initial gs pocketIdx =
      PocketFocusMode.applyVisibilityAndInteraction true
        { openPocketIdx := some pocketIdx, baselineCaptured := false,
          movedToOverlay := [], releasedToWorld := [], prevPieceState := [] } gs := rfl
  have hfs3 : (PocketFocusMode.openFocus PocketFocusMode.initial gs pocketIdx).1 =
      { openPocketIdx := some pocketIdx
        baselineCaptured := true
        movedToOverlay :=
          PocketFocusMode.buildMoved (pocket.pieces.map (·.pieceId)) 0 gs.pieces []
        releasedToWorld := []
        prevPieceState := PocketFocusMode.buildPrev true 0 gs.pieces [] } := by
    rw [h1]
    exact PocketFocusMode.applyVis_fs true _ gs pocketIdx pocket rfl hp
  have hgs1 : (PocketFocusMode.openFocus PocketFocusMode.initial gs pocketIdx).2.pieces[id]? =
      some (PocketFocusMode.applyPieceVis (pocket.pieces.map (·.pieceId))
        ((pocket.template.map (fun t => t.pieceLayout.map (·.1))).getD [])
        pocket.template.isSome [] [] id piece) := by
    rw [h1]
    rw [PocketFocusMode.applyVis_pieces_getElem? true _ gs pocketIdx pocket rfl hp id]
    rw [hq]
    rfl
  have hcloseget : (PocketFocusMode.close
      (PocketFocusMode.openFocus PocketFocusMode.initial gs pocketIdx).1
      (PocketFocusMode.openFocus PocketFocusMode.initial gs pocketIdx).2).2.pieces[id]? =
      some (PocketFocusMode.closeRestorePiece
        (PocketFocusMode.openFocus PocketFocusMode.initial gs pocketIdx).1 id
        (PocketFocusMode.applyPieceVis (pocket.pieces.map (·.pieceId))
          ((pocket.template.map (fun t => t.pieceLayout.map (·.1))).getD [])
          pocket.template.isSome [] [] id piece)) := by
    rw [PocketFocusMode.close_pieces_getElem? _ _ pocketIdx
      (by rw [hfs3]) (by rw [hfs3]) id]
    rw [hgs1]
    rfl
  have hlk : (PocketFocusMode.openFocus PocketFocusMode.initial gs
      pocketIdx).1.prevPieceState.lookup id = some (PocketFocusMode.captureOf piece) := by
    rw [hfs3]
    have := PocketFocusMode.buildPrev_lookup gs.pieces 0 []
      (fun k _ => List.lookup_nil) hq
    rw [Nat.zero_add] at this
    exact this
  obtain ⟨f1, f2, f3, f4, f5, f6, f7, -⟩ :=
    PocketFocusMode.closeRestorePiece_fields
      (PocketFocusMode.openFocus PocketFocusMode.initial gs pocketIdx).1 id
      (PocketFocusMode.applyPieceVis (pocket.pieces.map (·.pieceId))
        ((pocket.template.map (fun t => t.pieceLayout.map (·.1))).getD [])
        pocket.template.isSome [] [] id piece)
      (PocketFocusMode.captureOf piece) hlk
  exact ⟨_, hcloseget, f1, f2, f3, f4, f5, f6, f7⟩

/-- C1 as stated is false on the code: `close()` restores the baseline
alpha but then `PuzzleBoard.enablePieceInteraction` (invoked for every
piece whose baseline interaction was enabled) ends with `setAlpha(1)`,
clobbering the restored alpha.  A piece with alpha 1/2 and interaction
enabled before `open()` comes back from an immediate open/close cycle
with alpha 1 ≠ 1/2. -/
theorem focusMode_open_close_alpha_counterexample :
    (({ pieces := [{ basePiece with alpha := 1/2 }], pockets := initialPockets,
        boardX := 0, boardY := 0 } : GameState).pieces[0]?).map (·.alpha) =
      some (1/2) ∧
    (({ pieces := [{ basePiece with alpha := 1/2 }], pockets := initialPockets,
        boardX := 0, boardY := 0 } : GameState).pieces[0]?).map (·.interactive) =
      some true ∧
    ((PocketFocusMode.close
      (PocketFocusMode.openFocus PocketFocusMode.initial
        { pieces := [{ basePiece with alpha := 1/2 }], pockets := initialPockets,
          boardX := 0, boardY := 0 } 0).1
      (PocketFocusMode.openFocus PocketFocusMode.initial
        { pieces := [{ basePiece with alpha := 1/2 }], pockets := initialPockets,
          boardX := 0, boardY := 0 } 0).2).2.pieces[0]?).map (·.alpha) = some 1 ∧
    (1 : Rat) ≠ 1/2 := by
  obtain ⟨piece', hget, -, -, -, -, -, -, halpha⟩ :=
    focus_open_close_core
      { pieces := [{ basePiece with alpha := 1/2 }], pockets := initialPockets,
        boardX := 0, boardY := 0 } 0
      { id := 0, pieces := [], template := none } rfl 0
      { basePiece with alpha := 1/2 } rfl
  refine ⟨rfl, rfl, ?_, by norm_num⟩
  rw [hget]
  simp only [Option.map_some']
  rw [halpha]
  rfl

/-- C1 amended: `open(idx)` immediately followed by `close()` with no
intervening snap, release or refresh restores every piece's visibility,
render depth, scroll factor, tint and interactivity-enabled state exactly;
alpha is restored exactly for pieces whose pre-open interaction was
disabled, while every piece with pre-open interaction enabled ends with
alpha 1 (re-enabling board interaction resets alpha). -/
theorem focusMode_open_close_restore (gs : GameState) (pocketIdx : Nat)
    (pocket : PocketState) (hp : gs.pockets[pocketIdx]? = some pocket)
    (id : Nat) (piece : Piece) (hq : gs.pieces[id]? = some piece) :
    ∃ piece',
      (PocketFocusMode.close
        (PocketFocusMode.openFocus PocketFocusMode.initial gs pocketIdx).1
        (PocketFocusMode.openFocus PocketFocusMode.initial gs pocketIdx).2).2.pieces[id]? =
        some piece' ∧
      piece'.visible = piece.visible ∧
      piece'.depth = piece.depth ∧
      piece'.scrollX = piece.scrollX ∧
      piece'.scrollY = piece.scrollY ∧
      piece'.tint = piece.tint ∧
      piece'.interactive = piece.interactive ∧
      piece'.alpha = (if piece.interactive then 1 else piece.alpha) :=
  focus_open_close_core gs pocketIdx pocket hp id piece hq

/-- Witness for the amended C1 on a concrete one-piece board. -/
theorem focusMode_open_close_restore_witness :
    ∃ piece',
      (PocketFocusMode.close
        (PocketFocusMode.openFocus PocketFocusMode.initial
          { pieces := [basePiece], pockets := initialPockets,
            boardX := 0, boardY := 0 } 0).1
        (PocketFocusMode.openFocus PocketFocusMode.initial
          { pieces := [basePiece], pockets := initialPockets,
            boardX := 0, boardY := 0 } 0).2).2.pieces[0]? = some piece' ∧
      piece'.visible = basePiece.visible ∧
      piece'.depth = basePiece.depth ∧
      piece'.scrollX = basePiece.scrollX ∧
      piece'.scrollY = basePiece.scrollY ∧
      piece'.tint = basePiece.tint ∧
      piece'.interactive = basePiece.interactive ∧
      piece'.alpha = (if basePiece.interactive then 1 else basePiece.alpha) :=
  focusMode_open_close_restore
    { pieces := [basePiece], pockets := initialPockets, boardX := 0, boardY := 0 } 0
    { id := 0, pieces := [], template := none } rfl 0 basePiece rfl

/-! ## Claim C10 — the open/close cycle clears isSolved for pocket pieces -/

/-- C10: `open(idx)` sets `isSolved := false` on every board piece listed
in the opened pocket, and `close()` never restores the flag (the baseline
snapshot records only visibility, interactivity, depth, scroll factor,
alpha and tint), so such a piece is unsolved after the cycle even with no
intervening snap or release. -/
theorem focusMode_open_close_clears_isSolved (gs : GameState) (pocketIdx : Nat)
    (pocket : PocketState) (hp : gs.pockets[pocketIdx]? = some pocket)
    (id : Nat) (piece : Piece) (hq : gs.pieces[id]? = some piece)
    (hid : id ∈ pocket.pieces.map (·.pieceId)) :
    (((PocketFocusMode.openFocus PocketFocusMode.initial gs
        pocketIdx).2.pieces[id]?).map (·.isSolved) = some false) ∧
    (((PocketFocusMode.close
        (PocketFocusMode.openFocus PocketFocusMode.initial gs pocketIdx).1
        (PocketFocusMode.openFocus PocketFocusMode.initial gs
          pocketIdx).2).2.pieces[id]?).map (·.isSolved) = some false) := by
  have h1 : PocketFocusMode.openFocus PocketFocusMode.initial gs pocketIdx =
      PocketFocusMode.applyVisibilityAndInteraction true
        { openPocketIdx := some pocketIdx, baselineCaptured := false,
          movedToOverlay := [], releasedToWorld := [], prevPieceState := [] } gs := rfl
  have hcontains : (pocket.pieces.map (·.pieceId)).contains id = true :=
    List.elem_iff.mpr hid
  have hvis : (PocketFocusMode.applyPieceVis (pocket.pieces.map (·.pieceId))
      ((pocket.template.map (fun t => t.pieceLayout.map (·.1))).getD [])
      pocket.template.isSome [] [] id piece).isSolved = false := by
    unfold PocketFocusMode.applyPieceVis
    rw [if_pos hcontains]
  have hfs3 : (PocketFocusMode.openFocus PocketFocusMode.initial gs pocketIdx).1 =
      { openPocketIdx := some pocketIdx
        baselineCaptured := true
        movedToOverlay :=
          PocketFocusMode.buildMoved (pocket.pieces.map (·.pieceId)) 0 gs.pieces []
        releasedToWorld := []
        prevPieceState := PocketFocusMode.buildPrev true 0 gs.pieces [] } := by
    rw [h1]
    exact PocketFocusMode.applyVis_fs true _ gs pocketIdx pocket rfl hp
  have hgs1 : (PocketFocusMode.openFocus PocketFocusMode.initial gs
      pocketIdx).2.pieces[id]? =
      some (PocketFocusMode.applyPieceVis (pocket.pieces.map (·.pieceId))
        ((pocket.template.map (fun t => t.pieceLayout.map (·.1))).getD [])
        pocket.template.isSome [] [] id piece) := by
    rw [h1]
    rw [PocketFocusMode.applyVis_pieces_getElem? true _ gs pocketIdx pocket rfl hp id]
    rw [hq]
    rfl
  constructor
  · rw [hgs1]
    simp only [Option.map_some']
    rw [hvis]
  · rw [PocketFocusMode.close_pieces_getElem? _ _ pocketIdx
      (by rw [hfs3]) (by rw [hfs3]) id]
    rw [hgs1]
    simp only [Option.map_some']
    rw [PocketFocusMode.closeRestorePiece_isSolved]
    rw [hvis]

/-- Witness for C10: a solved piece stashed in pocket 0 is unsolved after
open/close. -/
theorem focusMode_open_close_clears_isSolved_witness :
    (((PocketFocusMode.openFocus PocketFocusMode.initial
        { pieces := [{ basePiece with isSolved := true }],
          pockets := [{ id := 0,
                        pieces := [{ pieceId := 0, angle := 0, slotIndex := some 0,
                                     lastWorldPos := none }],
                        template := none },
                      { id := 1, pieces := [], template := none },
                      { id := 2, pieces := [], template := none }],
          boardX := 0, boardY := 0 } 0).2.pieces[0]?).map (·.isSolved) = some false) ∧
    (((PocketFocusMode.close
        (PocketFocusMode.openFocus PocketFocusMode.initial
          { pieces := [{ basePiece with isSolved := true }],
            pockets := [{ id := 0,
                          pieces := [{ pieceId := 0, angle := 0, slotIndex := some 0,
                                       lastWorldPos := none }],
                          template := none },
                        { id := 1, pieces := [], template := none },
                        { id := 2, pieces := [], template := none }],
            boardX := 0, boardY := 0 } 0).1
        (PocketFocusMode.openFocus PocketFocusMode.initial
          { pieces := [{ basePiece with isSolved := true }],
            pockets := [{ id := 0,
                          pieces := [{ pieceId := 0, angle := 0, slotIndex := some 0,
                                       lastWorldPos := none }],
                          template := none },
                        { id := 1, pieces := [], template := none },
                        { id := 2, pieces := [], template := none }],
            boardX := 0, boardY := 0 } 0).2).2.pieces[0]?).map (·.isSolved) =
      some false) :=
  focusMode_open_close_clears_isSolved
    { pieces := [{ basePiece with isSolved := true }],
      pockets := [{ id := 0,
                    pieces := [{ pieceId := 0, angle := 0, slotIndex := some 0,
                                 lastWorldPos := none }],
                    template := none },
                  { id := 1, pieces := [], template := none },
                  { id := 2, pieces := [], template := none }],
      boardX := 0, boardY := 0 } 0
    { id := 0,
      pieces := [{ pieceId := 0, angle := 0, slotIndex := some 0,
                   lastWorldPos := none }],
      template := none } rfl 0 { basePiece with isSolved := true } rfl (by decide)
